import Mathlib

/-
Verification development for the associative memory engine of the
ollama-interface repository.

Shallow embedding conventions used throughout this file:
  - JavaScript strings are Lean strings; the JS string primitives used by the
    code (substring, trim, toLowerCase, startsWith, includes, slice) are
    embedded as character-list operations (strDrop, strTrim, strLower,
    strStartsWith, strContains, strTakeRight below).  The sources only apply
    them to ASCII text, where these agree with the JS semantics.
  - Floating point similarity scores are embedded as rationals.  The float
    cosine-similarity computation itself (an external numeric routine) is
    abstracted as a function parameter; the control flow that compares scores
    against thresholds is translated literally.
  - External services (embedding service, completion service, vector search)
    are oracles passed in as function or data parameters: an embedding call
    that can fail is an Option result, a completion call that can fail is an
    Except result, and a vector search is the list of hits it returned.
  - SQLite tables are lists of row structures; parameterized statements
    (SELECT / INSERT / UPDATE / DELETE) become find? / append / map / filter.
  - randomUUID() fresh identifiers are passed in as explicit parameters
    (their values are never interpreted by the code under verification).
  - A JS try/catch boundary becomes a match on an Except value.
-/

/- ===================== String primitives (JS semantics) ===================== -/

/-- JS String.prototype.substring(n) / slice(n): drop the first n characters. -/
def strDrop (s : String) (n : Nat) : String :=
  ⟨s.data.drop n⟩

/-- JS String.prototype.slice(0, n) and similar prefix take. -/
def strTake (s : String) (n : Nat) : String :=
  ⟨s.data.take n⟩

/-- JS String.prototype.slice(-n): keep the last n characters. -/
def strTakeRight (s : String) (n : Nat) : String :=
  ⟨s.data.drop (s.data.length - n)⟩

/-- JS String.prototype.startsWith. -/
def strStartsWith (s p : String) : Bool :=
  decide (s.data.take p.data.length = p.data)

/-- ASCII whitespace recognizer used by strTrim (JS trim on the ASCII range). -/
def isWhiteChar (c : Char) : Bool :=
  c = ' ' || c = '\t' || c = '\n' || c = '\r'

/-- JS String.prototype.trim restricted to ASCII whitespace. -/
def strTrim (s : String) : String :=
  ⟨((s.data.dropWhile isWhiteChar).reverse.dropWhile isWhiteChar).reverse⟩

/-- JS String.prototype.toLowerCase restricted to ASCII. -/
def strLower (s : String) : String :=
  ⟨s.data.map Char.toLower⟩

/-- JS String.prototype.toUpperCase restricted to ASCII. -/
def strUpper (s : String) : String :=
  ⟨s.data.map Char.toUpper⟩

/-- JS String.prototype.includes: substring containment. -/
def strContains (s p : String) : Bool :=
  decide (p.data <:+: s.data)

/- ===================== src/db/memory-flush.js ===================== -/

/-- Chat message record, as handled by src/db/memory-flush.js. -/
structure Msg where
  role : String
  content : String
deriving Repr, DecidableEq

/-- estimateTokens (memory-flush.js): Math.ceil(text.length / 4), 0 for empty. -/
def estimateTokens (text : String) : Nat :=
  (text.data.length + 3) / 4

/-- estimateMessagesTokens (memory-flush.js): sum over messages with content. -/
def estimateMessagesTokens (messages : List Msg) : Nat :=
  messages.foldl
    (fun total msg => if msg.content ≠ "" then total + estimateTokens msg.content else total) 0

/-- getModelContextLimit (memory-flush.js): substring table lookup over the
lowercased model name, most specific first, defaulting to 8192. -/
def getModelContextLimit (model : String) : Nat :=
  if model = "" then 8192 else
  let m := strLower model
  if strContains m "o1" || strContains m "o3" || strContains m "o4" then 200000
  else if strContains m "claude-opus-4" then 200000
  else if strContains m "claude-sonnet-4" then 200000
  else if strContains m "claude-haiku-4" then 200000
  else if strContains m "gpt-5" then 128000
  else if strContains m "gpt-4o" then 128000
  else if strContains m "gpt-4-turbo" then 128000
  else if strContains m "gpt-4" then 8192
  else if strContains m "command" then 128000
  else if strContains m "grok-4" then 131072
  else if strContains m "grok-3" then 131072
  else if strContains m "scout" then 131072
  else if strContains m "llama" then 131072
  else if strContains m "deepseek" then 131072
  else if strContains m "qwen" then 32768
  else if strContains m "mistral" then 32768
  else if strContains m "phi" then 16384
  else if strContains m "gemma" then 8192
  else 8192

/-- shouldFlush (memory-flush.js): needsFlush when the token estimate exceeds
80 percent of the context limit. -/
def shouldFlush (messages : List Msg) (model : String) : Bool :=
  let tokenCount := estimateMessagesTokens messages
  let contextLimit := getModelContextLimit model
  decide ((tokenCount : ℚ) > (contextLimit : ℚ) * (4 / 5))

/-- Result of performFlush.  The daily-log write performed by
factExtractor.appendToDailyLog is reported as data in dailyLogAppended
(none when appendToDailyLog skips because the summary is blank). -/
structure FlushResult where
  compactedMessages : List Msg
  flushSummary : String
  dailyLogAppended : Option String
deriving Repr, DecidableEq

/-- The synthetic compaction marker message inserted by performFlush. -/
def syntheticCompactionMsg : Msg :=
  { role := "system",
    content := "[Context was compacted to save space. Key points from earlier conversation were saved to memory.]" }

/-- Transcript of user and assistant turns (performFlush, memory-flush.js):
ROLE-uppercased lines joined with blank lines. -/
def conversationText (messages : List Msg) : String :=
  let conv := messages.filter (fun m => m.role = "user" || m.role = "assistant")
  String.intercalate "\n\n" (conv.map (fun m => strUpper m.role ++ ": " ++ m.content))

/-- The user prompt performFlush sends to the completion service (including the
50-percent-of-context tail truncation of the transcript). -/
def flushUserPrompt (messages : List Msg) (model : String) : String :=
  let contextLimit := getModelContextLimit model
  let conv := conversationText messages
  let maxExtractionTokens := contextLimit / 2
  let truncated :=
    if estimateTokens conv > maxExtractionTokens then strTakeRight conv (maxExtractionTokens * 4)
    else conv
  "This conversation is getting long. Extract all important facts, decisions, preferences, action items, and technical details from the following conversation. Write them as bullet points.\n\n" ++ truncated

/-- Extra copy of the original system message kept by the compaction step: the
first system message is re-included unless it is (by position, mirroring the
JS object-identity test against recentMessages[0]) the head of the kept tail. -/
def keptSystemMsg (messages : List Msg) : List Msg :=
  match messages.find? (fun m => m.role = "system"),
        messages.findIdx? (fun m => m.role = "system") with
  | some m, some i => if i ≠ messages.length - 10 then [m] else []
  | _, _ => []

/-- Compacted message list built by performFlush on success: the synthetic
marker, the original system message if distinct from the head of the tail,
then the last 10 messages (JS slice(-10)). -/
def compactMessages (messages : List Msg) : List Msg :=
  syntheticCompactionMsg :: keptSystemMsg messages ++ messages.drop (messages.length - 10)

/-- performFlush (memory-flush.js).  The completion-service call
(callLLMForFlush) is the oracle llm applied to the extraction prompt; a
thrown error is the Except error case, handled by the outer catch which
returns the original message list.  The fact-extraction step
(processFactExtraction) is wrapped in its own try/catch in the source and
never affects the returned messages, so it does not appear in the result. -/
def performFlush (llm : String → Except String String) (messages : List Msg)
    (model : String) : FlushResult :=
  match llm (flushUserPrompt messages model) with
  | .error _ =>
    { compactedMessages := messages, flushSummary := "", dailyLogAppended := none }
  | .ok flushSummary =>
    { compactedMessages := compactMessages messages,
      flushSummary := flushSummary,
      dailyLogAppended := if strTrim flushSummary = "" then none else some flushSummary }

/- ===================== src/db/database.js : hybridSearch ===================== -/

/-- One vector-search hit as returned by searchSimilar (database.js). -/
structure VecHit where
  messageId : String
  text : String
  role : String
  conversationId : String
  similarity : ℚ
deriving Repr, DecidableEq

/-- One keyword hit as returned by searchBM25 (database.js), with its
already-normalized score in [0, 1]. -/
structure BmHit where
  messageId : String
  conversationId : String
  content : String
  score : ℚ
deriving Repr, DecidableEq

/-- Row of the messages table consulted for BM25-only hits (database.js). -/
structure MessageRow where
  id : String
  conversationId : String
  role : String
  content : String
deriving Repr, DecidableEq

/-- Entry of the fusion map built in hybridSearch step 4. -/
structure FusedRec where
  text : String
  role : String
  conversationId : String
  messageId : String
  vectorScore : ℚ
  bm25Score : ℚ
deriving Repr, DecidableEq

/-- Final record returned by hybridSearch; vectorScore and bm25Score mirror
the debug fields carried alongside the combined score in the source. -/
structure HybridRec where
  text : String
  role : String
  conversationId : String
  similarity : ℚ
  source : String
  vectorScore : ℚ
  bm25Score : ℚ
deriving Repr, DecidableEq

/-- JS Map.prototype.set on an insertion-ordered association list: overwrite in
place when the key exists, append otherwise. -/
def mapSet (m : List (String × FusedRec)) (k : String) (v : FusedRec) :
    List (String × FusedRec) :=
  if m.any (fun p => p.1 = k) then m.map (fun p => if p.1 = k then (k, v) else p)
  else m ++ [(k, v)]

/-- hybridSearch step 4a: seed the fusion map from the vector results, keyed by
message_id falling back to text (the JS expression message_id or-else text). -/
def fuseVector (vectorResults : List VecHit) : List (String × FusedRec) :=
  vectorResults.foldl
    (fun m r =>
      let key := if r.messageId = "" then r.text else r.messageId
      mapSet m key
        { text := r.text, role := r.role, conversationId := r.conversationId,
          messageId := r.messageId, vectorScore := r.similarity, bm25Score := 0 })
    []

/-- hybridSearch step 4b: merge the BM25 results into the fusion map.  A key
already present gets its bm25Score set; otherwise the full message row is
looked up and a vector-score-0 entry added (a missing row is skipped, as is a
row lost to a db error in the source). -/
def fuseBm25 (messages : List MessageRow) (m0 : List (String × FusedRec))
    (bm25Results : List BmHit) : List (String × FusedRec) :=
  bm25Results.foldl
    (fun m r =>
      let key := if r.messageId = "" then r.content else r.messageId
      if m.any (fun p => p.1 = key) then
        m.map (fun p => if p.1 = key then (p.1, { p.2 with bm25Score := r.score }) else p)
      else
        match messages.find? (fun msg => msg.id = r.messageId) with
        | some msg =>
          m ++ [(key,
            { text := msg.content, role := msg.role, conversationId := msg.conversationId,
              messageId := msg.id, vectorScore := 0, bm25Score := r.score })]
        | none => m)
    m0

/-- hybridSearch step 5 per-record scoring and source tagging (weights 0.6 and
0.4, hybrid unless exactly one component is positive). -/
def combineRec (r : FusedRec) : HybridRec :=
  let finalScore := (3 / 5) * r.vectorScore + (2 / 5) * r.bm25Score
  let source :=
    if r.vectorScore > 0 ∧ r.bm25Score = 0 then "vector"
    else if r.bm25Score > 0 ∧ r.vectorScore = 0 then "bm25"
    else "hybrid"
  { text := r.text, role := r.role, conversationId := r.conversationId,
    similarity := finalScore, source := source,
    vectorScore := r.vectorScore, bm25Score := r.bm25Score }

/-- Descending-by-combined-score comparator used by the final sort. -/
def hybridLe (a b : HybridRec) : Bool :=
  decide (b.similarity ≤ a.similarity)

/-- hybridSearch (database.js), given the two search result sets (steps 1-3
are the external embedding and search calls), the messages table, and the
result limit: fuse by record identity, score, sort descending, take limit. -/
def hybridSearch (vectorResults : List VecHit) (bm25Results : List BmHit)
    (messages : List MessageRow) (limit : Nat) : List HybridRec :=
  let resultsMap := fuseBm25 messages (fuseVector vectorResults) bm25Results
  let combinedResults := (resultsMap.map Prod.snd).map combineRec
  (combinedResults.mergeSort hybridLe).take limit

/- ===================== src/db/fact-extractor.js ===================== -/

/-- Abstract embedding vector (the float payload is never inspected by the
code under verification, only compared through the similarity oracle). -/
abbrev Emb := List ℚ

/-- One section of MEMORY.md as produced by parseMemorySections
(fact-extractor.js): heading text, line span, and the bullet fact lines. -/
structure MemSection where
  heading : String
  startLine : Nat
  endLine : Nat
  factLines : List String
deriving Repr, DecidableEq, Inhabited

/-- Loop of parseMemorySections: walk the lines with the current open section
(i is the index of the head of the remaining lines, total the overall line
count used to close the final section). -/
def parseSectionsAux (total : Nat) : Nat → List String → Option MemSection → List MemSection
  | _, [], none => []
  | _, [], some cur => [{ cur with endLine := total - 1 }]
  | i, line :: rest, cur? =>
    if strStartsWith line "## " then
      let closed :=
        match cur? with
        | some cur => [{ cur with endLine := i - 1 }]
        | none => []
      closed ++ parseSectionsAux total (i + 1) rest
        (some { heading := strTrim (strDrop line 3), startLine := i, endLine := 0,
                factLines := [] })
    else
      match cur? with
      | some cur =>
        if strStartsWith line "- " then
          parseSectionsAux total (i + 1) rest
            (some { cur with factLines := cur.factLines ++ [strTrim (strDrop line 2)] })
        else
          parseSectionsAux total (i + 1) rest (some cur)
      | none => parseSectionsAux total (i + 1) rest none

/-- parseMemorySections (fact-extractor.js), on the line list of the file. -/
def parseMemorySections (lines : List String) : List MemSection :=
  parseSectionsAux lines.length 0 lines none

/-- extractAllFactLines (fact-extractor.js): trimmed text of every bullet line. -/
def extractAllFactLines (lines : List String) : List String :=
  (lines.filter (fun l => strStartsWith l "- ")).map (fun l => strTrim (strDrop l 2))

/-- JS Map update used for the factsPerSection map: append the fact to the
bucket of key k (section index, -1 for the catch-all), inserting the bucket at
the end on first use. -/
def bucketsAdd (bs : List (Int × List String)) (k : Int) (f : String) :
    List (Int × List String) :=
  if bs.any (fun p => p.1 = k) then
    bs.map (fun p => if p.1 = k then (p.1, p.2 ++ [f]) else p)
  else bs ++ [(k, [f])]

/-- State threaded through the per-fact loop of appendToMemory: the
accumulating existing-fact list, their embeddings, and the section buckets. -/
structure AppendLoopState where
  existingFacts : List String
  existingEmbs : List (Option Emb)
  buckets : List (Int × List String)
deriving Repr

/-- Best-section search of appendToMemory: fold over the section embeddings
tracking the best strictly-improving score, starting from score 0 and index
-1, skipping sections whose embedding failed. -/
def bestSectionOf (sim : Emb → Emb → ℚ) (factEmb : Emb)
    (sectionEmbs : List (Option Emb)) : Int × ℚ :=
  let r := sectionEmbs.foldl
    (fun (acc : Int × ℚ × Nat) e? =>
      match e? with
      | none => (acc.1, acc.2.1, acc.2.2 + 1)
      | some e =>
        let score := sim factEmb e
        if score > acc.2.1 then ((acc.2.2 : Int), score, acc.2.2 + 1)
        else (acc.1, acc.2.1, acc.2.2 + 1))
    (-1, 0, 0)
  (r.1, r.2.1)

/-- Body of the per-fact loop of appendToMemory (fact-extractor.js lines
445-499): exact-match dedup, embedding dedup, section placement, catch-all
fallback when the embedding service fails. -/
def appendLoopStep (E : String → Option Emb) (sim : Emb → Emb → ℚ)
    (sectionEmbs : List (Option Emb)) (st : AppendLoopState) (fact : String) :
    AppendLoopState :=
  let normalizedFact := strLower fact
  if st.existingFacts.any (fun ef => strLower ef = normalizedFact) then st
  else
    match E fact with
    | some factEmb =>
      let isDuplicate := st.existingEmbs.any (fun e? =>
        match e? with
        | some e => decide (sim factEmb e > 17 / 20)
        | none => false)
      if isDuplicate then st
      else
        let best := bestSectionOf sim factEmb sectionEmbs
        let bestIdx := if best.1 ≥ 0 ∧ best.2 > 3 / 10 then best.1 else -1
        { existingFacts := st.existingFacts ++ [fact],
          existingEmbs := st.existingEmbs ++ [some factEmb],
          buckets := bucketsAdd st.buckets bestIdx fact }
    | none =>
      { st with buckets := bucketsAdd st.buckets (-1) fact }

/-- Last bullet line index within a section span (appendToMemory insert-point
scan): start at the heading line, remember every bullet line up to endLine. -/
def lastBulletIn (lines : List String) (startL endL : Nat) : Nat :=
  (List.range (endL + 1 - startL)).foldl
    (fun acc j =>
      let i := startL + j
      if strStartsWith (lines.getD i "") "- " then i else acc)
    startL

/-- JS Array.prototype.splice(pos, 0, ...new): insert new lines before pos. -/
def spliceInsert (lines : List String) (pos : Nat) (new : List String) : List String :=
  lines.take pos ++ new ++ lines.drop pos

/-- Insert-position scan of the catch-all branch of appendToMemory: from the
first line starting with the Other heading, remember the last bullet line and
stop at the next section heading. -/
def otherScanAux (otherIdx : Nat) : List String → Nat → Nat → Nat
  | [], _, acc => acc
  | l :: rest, i, acc =>
    if strStartsWith l "- " then otherScanAux otherIdx rest (i + 1) i
    else if i > otherIdx ∧ strStartsWith l "## " then acc
    else otherScanAux otherIdx rest (i + 1) acc

/-- Insert position used when an Other section already exists. -/
def otherInsertPos (lines : List String) (otherIdx : Nat) : Nat :=
  otherScanAux otherIdx (lines.drop otherIdx) otherIdx otherIdx

/-- Result of appendToMemory.  The function in the source logs totalAdded but
has no return statement with a value, so its JS return value is undefined:
retVal carries that returned value (always none). -/
structure AppendResult where
  lines : List String
  totalAdded : Nat
  retVal : Option Nat
deriving Repr, DecidableEq

/-- Rebuild phase of appendToMemory (fact-extractor.js lines 506-553): splice
section buckets in descending line order, then place the catch-all bucket in
(or as) the Other section. -/
def rebuildLines (lines : List String) (sections : List MemSection)
    (buckets : List (Int × List String)) : List String :=
  let sectionInserts :=
    buckets.foldl
      (fun acc p =>
        if p.1 < 0 then acc
        else
          let s := sections.getD p.1.toNat default
          acc ++ [(lastBulletIn lines s.startLine s.endLine, p.2)])
      ([] : List (Nat × List String))
  let sorted := sectionInserts.mergeSort (fun a b => decide (b.1 ≤ a.1))
  let lines1 := sorted.foldl
    (fun ls ins => spliceInsert ls (ins.1 + 1) (ins.2.map (fun f => "- " ++ f))) lines
  match (buckets.find? (fun p => p.1 = -1)).map Prod.snd with
  | some otherFacts =>
    if otherFacts.isEmpty then lines1
    else if lines1.any (fun l => strStartsWith l "## Other") then
      let otherIdx := (lines1.findIdx? (fun l => strStartsWith l "## Other")).getD 0
      spliceInsert lines1 (otherInsertPos lines1 otherIdx + 1)
        (otherFacts.map (fun f => "- " ++ f))
    else
      lines1 ++ ["", "## Other"] ++ otherFacts.map (fun f => "- " ++ f)
  | none => lines1

/-- appendToMemory (fact-extractor.js): embedding-deduplicated,
section-placed fact ingestion over the line list of MEMORY.md.  E is the
embedding service (generateFactEmbedding), sim the cosine-similarity oracle
on its float vectors. -/
def appendToMemory (E : String → Option Emb) (sim : Emb → Emb → ℚ)
    (facts : List String) (lines : List String) : AppendResult :=
  if facts.isEmpty then { lines := lines, totalAdded := 0, retVal := none }
  else
    let sections := parseMemorySections lines
    let existingFacts := extractAllFactLines lines
    let existingEmbs := existingFacts.map E
    let sectionEmbs := sections.map (fun s =>
      E (s.heading ++ ": " ++ String.intercalate ". " s.factLines))
    let finalState := facts.foldl (appendLoopStep E sim sectionEmbs)
      { existingFacts := existingFacts, existingEmbs := existingEmbs, buckets := [] }
    if finalState.buckets.isEmpty then { lines := lines, totalAdded := 0, retVal := none }
    else
      { lines := rebuildLines lines sections finalState.buckets,
        totalAdded := (finalState.buckets.map (fun p => p.2.length)).sum,
        retVal := none }

/- ===================== src/db/memory-clusters.js : store model ===================== -/

/-- Row of the memory_clusters table. -/
structure ClusterRow where
  id : String
  name : String
  description : String
  createdAt : String
  updatedAt : String
deriving Repr, DecidableEq

/-- Row of the cluster_members table. -/
structure MemberRow where
  id : String
  clusterId : String
  content : String
  source : String
  importance : ℚ
  createdAt : String
deriving Repr, DecidableEq

/-- Row of the cluster_links table. -/
structure LinkRow where
  id : String
  clusterA : String
  clusterB : String
  strength : ℚ
deriving Repr, DecidableEq

/-- Record of the LanceDB cluster-embeddings table (the float vector payload
is never read back by the code under verification and is omitted). -/
structure VecRecord where
  id : String
  memberId : String
  clusterId : String
  content : String
deriving Repr, DecidableEq

/-- The relational store plus the vector store used by the cluster engine. -/
structure Store where
  clusters : List ClusterRow
  members : List MemberRow
  links : List LinkRow
  vectors : List VecRecord
deriving Repr, DecidableEq

/-- SELECT from cluster_links WHERE the pair matches in either direction
(createOrStrengthenLink, maintainLinks). -/
def findLinkEither (links : List LinkRow) (a b : String) : Option LinkRow :=
  links.find? (fun l =>
    (l.clusterA = a ∧ l.clusterB = b) ∨ (l.clusterA = b ∧ l.clusterB = a))

/-- Fallible store primitives used by assignToCluster; each models one
prepared-statement execution (or LanceDB call) that can throw.  pureOps below
is the non-throwing semantics; quantifying over ops captures arbitrary store
failures for the error-handling claims. -/
structure StoreOps where
  insertCluster : ClusterRow → Store → Except String Store
  selectClusterName : String → Store → Except String (Option String)
  updateClusterTs : String → String → Store → Except String Store
  insertMember : MemberRow → Store → Except String Store
  addVector : VecRecord → Store → Except String Store
  queryLink : String → String → Store → Except String (Option LinkRow)
  updateLinkStrength : String → ℚ → Store → Except String Store
  insertLink : LinkRow → Store → Except String Store

/-- The never-throwing store semantics of the primitives. -/
def pureOps : StoreOps where
  insertCluster c st := .ok { st with clusters := st.clusters ++ [c] }
  selectClusterName cid st := .ok ((st.clusters.find? (fun c => c.id = cid)).map (fun c => c.name))
  updateClusterTs now cid st := .ok
    { st with clusters := st.clusters.map (fun c => if c.id = cid then { c with updatedAt := now } else c) }
  insertMember m st := .ok { st with members := st.members ++ [m] }
  addVector v st := .ok { st with vectors := st.vectors ++ [v] }
  queryLink a b st := .ok (findLinkEither st.links a b)
  updateLinkStrength lid s st := .ok
    { st with links := st.links.map (fun l => if l.id = lid then { l with strength := s } else l) }
  insertLink l st := .ok { st with links := st.links ++ [l] }

/-- createOrStrengthenLink (memory-clusters.js lines 926-957): no self-links;
strengthen an existing link in either direction by 0.1 capped at 1.0, else
insert a fresh link at strength 0.5.  The whole body is inside its own
try/catch in the source, so a throwing primitive leaves the store as it was
and the function returns normally. -/
def createOrStrengthenLinkOps (ops : StoreOps) (linkId clusterA clusterB : String)
    (st : Store) : Store :=
  if clusterA = clusterB then st
  else
    match ops.queryLink clusterA clusterB st with
    | .error _ => st
    | .ok (some existingLink) =>
      let newStrength := min 1 (existingLink.strength + 1 / 10)
      match ops.updateLinkStrength existingLink.id newStrength st with
      | .ok st2 => st2
      | .error _ => st
    | .ok none =>
      match ops.insertLink
          { id := linkId, clusterA := clusterA, clusterB := clusterB, strength := 1 / 2 } st with
      | .ok st2 => st2
      | .error _ => st

/-- createOrStrengthenLink with the never-throwing store semantics. -/
def createOrStrengthenLink (linkId clusterA clusterB : String) (st : Store) : Store :=
  createOrStrengthenLinkOps pureOps linkId clusterA clusterB st

/-- One hit of the LanceDB vector search in assignToCluster: the owning
cluster and the reported cosine distance. -/
structure SearchHit where
  clusterId : String
  distance : ℚ
deriving Repr, DecidableEq

/-- Grouping loop of assignToCluster: per-cluster similarity lists in
first-occurrence order (JS object keyed by cluster_id). -/
def groupScores (hits : List SearchHit) : List (String × List ℚ) :=
  hits.foldl
    (fun acc h =>
      let similarity := 1 - h.distance
      if acc.any (fun p => p.1 = h.clusterId) then
        acc.map (fun p => if p.1 = h.clusterId then (p.1, p.2 ++ [similarity]) else p)
      else acc ++ [(h.clusterId, [similarity])])
    []

/-- Best-cluster search of assignToCluster: highest average similarity,
strictly improving from 0, none when no group beats 0. -/
def bestCluster (scores : List (String × List ℚ)) : Option String × ℚ :=
  scores.foldl
    (fun (acc : Option String × ℚ) p =>
      let avgSimilarity := p.2.sum / (p.2.length : ℚ)
      if avgSimilarity > acc.2 then (some p.1, avgSimilarity) else acc)
    (none, 0)

/-- JS spread of a Set built from a list: first-occurrence deduplication. -/
def firstDedup {α : Type} [DecidableEq α] (l : List α) : List α :=
  l.foldl (fun acc x => if x ∈ acc then acc else acc ++ [x]) []

/-- Inputs of one assignToCluster call that come from outside the store: the
fact and its source tag, the two configured thresholds
(config.memory.similarityThreshold and config.memory.clusterLinkThreshold),
the vector search outcome (none when the cluster-embeddings table is
unavailable), the generated cluster name (generateClusterName never throws:
it falls back to extractNameFromFact), the fresh randomUUID values, and the
timestamp. -/
structure AssignArgs where
  fact : String
  source : String
  simThreshold : ℚ
  linkThreshold : ℚ
  hits : Option (List SearchHit)
  newName : String
  newClusterId : String
  newMemberId : String
  newVecId : String
  linkIds : List String
  now : String
deriving Repr

/-- Return value of assignToCluster. -/
structure AssignResult where
  clusterId : Option String
  clusterName : Option String
  isNew : Bool
deriving Repr, DecidableEq

/-- The fail-closed return value of assignToCluster. -/
def nullAssign : AssignResult := { clusterId := none, clusterName := none, isNew := false }

/-- Cross-link candidates tracked during the search loop of assignToCluster:
hits whose similarity exceeds the configured link threshold. -/
def crossCandidates (linkThreshold : ℚ) (hits : List SearchHit) : List (String × ℚ) :=
  hits.filterMap (fun h =>
    if 1 - h.distance > linkThreshold then some (h.clusterId, 1 - h.distance) else none)

/-- Cross-cluster linking loop at the end of assignToCluster: one
createOrStrengthenLink per deduplicated other cluster, consuming one fresh
link id each (the inner try/catch of createOrStrengthenLink means this loop
never throws). -/
def linkFold (ops : StoreOps) (clusterId : String) (others : List String)
    (linkIds : List String) (st : Store) : Store :=
  (others.foldl
    (fun (p : Store × List String) otherClusterId =>
      (createOrStrengthenLinkOps ops (p.2.headD "link") clusterId otherClusterId p.1,
       p.2.drop 1))
    (st, linkIds)).1

/-- Body of assignToCluster (memory-clusters.js lines 986-1096), after the db
and embedding guards: search grouping, create-or-reuse decision, member
insert, vector add, cross linking.  A thrown store error propagates to the
outer catch. -/
def assignBody (ops : StoreOps) (a : AssignArgs) (st0 : Store) :
    Except String (Store × AssignResult) := do
  let searchData :=
    match a.hits with
    | none => ((none : Option String), (0 : ℚ), ([] : List (String × ℚ)))
    | some hs => ((bestCluster (groupScores hs)).1, (bestCluster (groupScores hs)).2,
                  crossCandidates a.linkThreshold hs)
  let bestClusterId := searchData.1
  let bestSimilarity := searchData.2.1
  let cands := searchData.2.2
  let branch ←
    if bestClusterId = none ∨ bestSimilarity ≤ a.simThreshold then do
      let st1 ← ops.insertCluster
        { id := a.newClusterId, name := a.newName, description := "",
          createdAt := a.now, updatedAt := a.now } st0
      pure (st1, a.newClusterId, a.newName, true)
    else do
      let cid := bestClusterId.getD ""
      let name? ← ops.selectClusterName cid st0
      let clusterName :=
        match name? with
        | some n => if n = "" then "Unknown" else n
        | none => "Unknown"
      let st1 ← ops.updateClusterTs a.now cid st0
      pure (st1, cid, clusterName, false)
  let st1 := branch.1
  let clusterId := branch.2.1
  let clusterName := branch.2.2.1
  let isNew := branch.2.2.2
  let st2 ← ops.insertMember
    { id := a.newMemberId, clusterId := clusterId, content := a.fact,
      source := a.source, importance := 1 / 2, createdAt := a.now } st1
  let st3 ←
    match a.hits with
    | some _ =>
      ops.addVector
        { id := a.newVecId, memberId := a.newMemberId, clusterId := clusterId,
          content := a.fact } st2
    | none => pure st2
  let uniqueClusters := firstDedup (cands.map Prod.fst)
  let otherClusters := uniqueClusters.filter (fun cid2 => cid2 ≠ clusterId)
  let stF := linkFold ops clusterId otherClusters a.linkIds st3
  pure (stF, { clusterId := some clusterId, clusterName := some clusterName, isNew := isNew })

/-- assignToCluster (memory-clusters.js lines 969-1101): fail closed with
null identifiers when the database is unavailable or embedding generation
fails, and catch any store error into the same null result (the store
component is none in that case, mirroring the source losing track of the
partially applied writes).  The embedding value itself is only a gate: the
search outcome over it is a.hits. -/
def assignToCluster (ops : StoreOps) (dbAvailable : Bool) (embedding : Option Emb)
    (a : AssignArgs) (st : Store) : Option Store × AssignResult :=
  if !dbAvailable then (some st, nullAssign)
  else
    match embedding with
    | none => (some st, nullAssign)
    | some _ =>
      match assignBody ops a st with
      | .ok out => (some out.1, out.2)
      | .error _ => (none, nullAssign)

/- ===================== src/db/database.js : maintenance tasks ===================== -/

/-- One validated cluster-audit action proposed by the completion service
(auditClusters, database.js): the JSON shapes with all required fields
present (an action with missing fields is skipped by the guards in the
source and never reaches the store). -/
inductive AuditAction where
  | merge (sourceClusterId targetClusterId : String)
  | move (memberId fromClusterId toClusterId : String)
  | split (clusterId : String) (memberIds : List String) (newClusterName : String)
deriving Repr, DecidableEq

/-- Delete-then-reinsert of one member vector record under a new cluster
(the clusterTable.delete plus conditional clusterTable.add sequence repeated
in auditClusters): the record id stands for the randomUUID of the source and
is never interpreted. -/
def reembedMember (tablePresent : Bool) (E : String → Option Emb)
    (memberId content toClusterId : String) (st : Store) : Store :=
  if tablePresent then
    let st1 := { st with vectors := st.vectors.filter (fun v => v.memberId ≠ memberId) }
    match E content with
    | some _ =>
      { st1 with vectors := st1.vectors ++
          [{ id := "vec:" ++ memberId, memberId := memberId, clusterId := toClusterId,
             content := content }] }
    | none => st1
  else st

/-- UPDATE cluster_members SET cluster_id = toClusterId WHERE id = memberId. -/
def setMemberCluster (memberId toClusterId : String) (st : Store) : Store :=
  let newMembers := st.members.map
    (fun x => if x.id = memberId then { x with clusterId := toClusterId } else x)
  { st with members := newMembers }

/-- UPDATE memory_clusters SET updated_at = now WHERE id = clusterId. -/
def bumpClusterTs (clusterId now : String) (st : Store) : Store :=
  let newClusters := st.clusters.map
    (fun c => if c.id = clusterId then { c with updatedAt := now } else c)
  { st with clusters := newClusters }

/-- DELETE FROM cluster_links WHERE cluster_a = clusterId OR cluster_b =
clusterId. -/
def deleteClusterLinks (clusterId : String) (st : Store) : Store :=
  let remaining := st.links.filter
    (fun l => ¬ (l.clusterA = clusterId ∨ l.clusterB = clusterId))
  { st with links := remaining }

/-- DELETE FROM memory_clusters WHERE id = clusterId. -/
def deleteClusterRow (clusterId : String) (st : Store) : Store :=
  { st with clusters := st.clusters.filter (fun c => ¬ c.id = clusterId) }

/-- Application of one audit action (auditClusters, database.js lines
1586-1716): re-validate the referenced rows, then apply the merge, move or
split mutations.  newClusterId is the randomUUID minted for a split. -/
def applyAuditAction (tablePresent : Bool) (E : String → Option Emb)
    (newClusterId : String) (now : String) (st : Store) : AuditAction → Store
  | .merge sourceClusterId targetClusterId =>
    if (st.clusters.find? (fun c => c.id = sourceClusterId)).isSome ∧
       (st.clusters.find? (fun c => c.id = targetClusterId)).isSome then
      let members := st.members.filter (fun m => m.clusterId = sourceClusterId)
      let st1 := members.foldl
        (fun acc m =>
          reembedMember tablePresent E m.id m.content targetClusterId
            (setMemberCluster m.id targetClusterId acc))
        st
      bumpClusterTs targetClusterId now
        (deleteClusterRow sourceClusterId (deleteClusterLinks sourceClusterId st1))
    else st
  | .move memberId fromClusterId toClusterId =>
    match st.members.find? (fun m => m.id = memberId ∧ m.clusterId = fromClusterId),
          st.clusters.find? (fun c => c.id = toClusterId) with
    | some member, some _ =>
      let st1 := setMemberCluster memberId toClusterId st
      let st2 := reembedMember tablePresent E memberId member.content toClusterId st1
      bumpClusterTs toClusterId now st2
    | _, _ => st
  | .split clusterId memberIds newClusterName =>
    if (st.clusters.find? (fun c => c.id = clusterId)).isSome then
      let membersToMove := memberIds.filterMap
        (fun mid => st.members.find? (fun m => m.id = mid ∧ m.clusterId = clusterId))
      if membersToMove.isEmpty then st
      else
        let newCluster : ClusterRow :=
          { id := newClusterId, name := newClusterName, description := "",
            createdAt := now, updatedAt := now }
        let st1 := { st with clusters := st.clusters ++ [newCluster] }
        membersToMove.foldl
          (fun acc m =>
            reembedMember tablePresent E m.id m.content newClusterId
              (setMemberCluster m.id newClusterId acc))
          st1
    else st

/-- Member count of a cluster in the relational store. -/
def memberCount (st : Store) (clusterId : String) : Nat :=
  (st.members.filter (fun m => m.clusterId = clusterId)).length

/-- SQLite DATE() applied to the ISO timestamps the code stores: the
YYYY-MM-DD prefix. -/
def dateOf (createdAt : String) : String :=
  strTake createdAt 10

/-- Grouping of distinct (clusterId, date) rows by date (maintainLinks,
database.js): date keyed association list in first-occurrence order. -/
def dateGroups (pairs : List (String × String)) : List (String × List String) :=
  pairs.foldl
    (fun acc p =>
      if acc.any (fun q => q.1 = p.2) then
        acc.map (fun q => if q.1 = p.2 then (q.1, q.2 ++ [p.1]) else q)
      else acc ++ [(p.2, [p.1])])
    []

/-- The i-less-than-j double loop over a list: all ordered pairs. -/
def orderedPairs {α : Type} : List α → List (α × α)
  | [] => []
  | x :: xs => xs.map (fun y => (x, y)) ++ orderedPairs xs

/-- Co-occurrence strengthening of one cluster pair (maintainLinks): an
existing link in either direction gains 0.05 capped at 1.0 (written back only
when the value changed); a missing link is left missing. -/
def strengthenPair (links : List LinkRow) (x y : String) : List LinkRow :=
  match findLinkEither links x y with
  | some link =>
    let newStrength := min 1 (link.strength + 1 / 20)
    if newStrength ≠ link.strength then
      links.map (fun r => if r.id = link.id then { r with strength := newStrength } else r)
    else links
  | none => links

/-- maintainLinks (database.js lines 2013-2077): prune links below strength
0.3, then strengthen the link between every pair of clusters that gained
members on the same calendar date.  The pruned/strengthened counters only
feed the log line and the task result and are omitted. -/
def maintainLinks (st : Store) : Store :=
  let pruned := st.links.filter (fun l => ¬ l.strength < 3 / 10)
  let groups := dateGroups (firstDedup
    (st.members.map (fun m => (m.clusterId, dateOf m.createdAt))))
  let finalLinks := groups.foldl
    (fun links g =>
      let unique := firstDedup g.2
      if unique.length < 2 then links
      else (orderedPairs unique).foldl (fun ls p => strengthenPair ls p.1 p.2) links)
    pruned
  { st with links := finalLinks }

/- ===================== src/db/database.js : runMaintenance ===================== -/

/-- Result object of auditClusters. -/
structure AuditResults where
  merges : Nat
  moves : Nat
  splits : Nat
deriving Repr, DecidableEq

/-- Result object of cleanupFacts. -/
structure CleanupResults where
  removed : Nat
  reworded : Nat
  merged : Nat
deriving Repr, DecidableEq

/-- Result object of summarizeDailyLogs. -/
structure ArchiveResults where
  archived : Nat
  factsExtracted : Nat
deriving Repr, DecidableEq

/-- Result object of maintainLinks. -/
structure LinkResults where
  pruned : Nat
  strengthened : Nat
deriving Repr, DecidableEq

/-- Return value of runMaintenance: the skipped no-op result for a re-entrant
call, or the combined results of the four tasks (the elapsed-time string is
omitted). -/
inductive MaintOutcome where
  | skipped
  | completed (audit : AuditResults) (cleanup : CleanupResults)
      (archive : ArchiveResults) (links : LinkResults)
deriving Repr, DecidableEq

/-- Per-task try/catch shared by the four maintenance tasks: each task body
either finishes (ok) or throws midway (error); in both cases the task
returns its results object and the state as accumulated, so a task never
throws out of its own boundary. -/
def runTask {σ ρ : Type} (body : σ → Except (ρ × σ) (ρ × σ)) (s : σ) : ρ × σ :=
  match body s with
  | .ok out => out
  | .error out => out

/-- runMaintenance (database.js lines 2085-2111): the single-flight guard
returns the skipped result without touching any task; otherwise the four
tasks run sequentially, each behind its own catch, over the shared state σ
(the stores and the file system).  The outer try/catch of the source never
fires because every task catches internally. -/
def runMaintenance {σ : Type} (isRunning : Bool)
    (auditClustersTask : σ → Except (AuditResults × σ) (AuditResults × σ))
    (cleanupFactsTask : σ → Except (CleanupResults × σ) (CleanupResults × σ))
    (summarizeDailyLogsTask : σ → Except (ArchiveResults × σ) (ArchiveResults × σ))
    (maintainLinksTask : σ → Except (LinkResults × σ) (LinkResults × σ))
    (s : σ) : MaintOutcome × σ :=
  if isRunning then (.skipped, s)
  else
    let audit := runTask auditClustersTask s
    let cleanup := runTask cleanupFactsTask audit.2
    let archive := runTask summarizeDailyLogsTask cleanup.2
    let links := runTask maintainLinksTask archive.2
    (.completed audit.1 cleanup.1 archive.1 links.1, links.2)

/- ===================== Spec-side predicates and example data ===================== -/

/-- Exact-match dedup test of appendToMemory: some existing fact line equals
the candidate case-insensitively. -/
def exactDupB (lines : List String) (fact : String) : Bool :=
  (extractAllFactLines lines).any (fun ef => strLower ef = strLower fact)

/-- Semantic-dedup test of appendToMemory: the embedded candidate is more
than 0.85-similar to some existing embedded fact. -/
def semDupB (E : String → Option Emb) (sim : Emb → Emb → ℚ)
    (lines : List String) (fact : String) : Bool :=
  match E fact with
  | some e =>
    ((extractAllFactLines lines).map E).any (fun e? =>
      match e? with
      | some e2 => decide (sim e e2 > 17 / 20)
      | none => false)
  | none => false

/-- Unordered-pair match between a link row and a cluster pair. -/
def pairOf (l : LinkRow) (a b : String) : Prop :=
  (l.clusterA = a ∧ l.clusterB = b) ∨ (l.clusterA = b ∧ l.clusterB = a)

instance (l : LinkRow) (a b : String) : Decidable (pairOf l a b) := by
  unfold pairOf; infer_instance

/-- Unordered-pair equality of two link rows. -/
def samePair (l1 l2 : LinkRow) : Prop :=
  pairOf l1 l2.clusterA l2.clusterB

instance (l1 l2 : LinkRow) : Decidable (samePair l1 l2) := by
  unfold samePair; infer_instance

/-- The cluster-link invariants of the data model: one row per unordered
pair, no self-links, strength within the unit interval. -/
def LinksInv (links : List LinkRow) : Prop :=
  links.Pairwise (fun l1 l2 => ¬ samePair l1 l2) ∧
  ∀ l ∈ links, l.clusterA ≠ l.clusterB ∧ 0 ≤ l.strength ∧ l.strength ≤ 1

instance (links : List LinkRow) : Decidable (LinksInv links) := by
  unfold LinksInv; infer_instance

/-- Strength createOrStrengthenLink leaves on the link of a pair: the capped
increment of the pre-state link, or the initial 0.5. -/
def expectedStrength (links : List LinkRow) (a b : String) : ℚ :=
  match findLinkEither links a b with
  | some l0 => min 1 (l0.strength + 1 / 10)
  | none => 1 / 2

/-- New-cluster condition of assignToCluster on a list of search hits: no
group, or best mean similarity at most the similarity threshold. -/
def newClusterCond (simThreshold : ℚ) (hs : List SearchHit) : Prop :=
  (bestCluster (groupScores hs)).1 = none ∨ (bestCluster (groupScores hs)).2 ≤ simThreshold

instance (simThreshold : ℚ) (hs : List SearchHit) :
    Decidable (newClusterCond simThreshold hs) := by
  unfold newClusterCond; infer_instance

/-- Maintenance task body that succeeds after recording its name. -/
def okLogTask {ρ : Type} (name : String) (r : ρ) :
    List String → Except (ρ × List String) (ρ × List String) :=
  fun log => .ok (r, log ++ [name])

/-- Maintenance task body that throws midway, after recording its name. -/
def errLogTask {ρ : Type} (name : String) (r : ρ) :
    List String → Except (ρ × List String) (ρ × List String) :=
  fun log => .error (r, log ++ [name])

/-- Example store: cluster A with one member, cluster B with one member, and
one A-B link. -/
def exStoreAB : Store :=
  { clusters := [{ id := "A", name := "Pets", description := "", createdAt := "t0", updatedAt := "t0" },
                 { id := "B", name := "Hardware", description := "", createdAt := "t0", updatedAt := "t0" }],
    members := [{ id := "m1", clusterId := "A", content := "User has a cat", source := "conversation", importance := 1 / 2, createdAt := "2025-01-01T10:00:00" },
                { id := "m2", clusterId := "B", content := "User has a server", source := "conversation", importance := 1 / 2, createdAt := "2025-01-01T11:00:00" }],
    links := [{ id := "lAB", clusterA := "A", clusterB := "B", strength := 1 / 2 }],
    vectors := [{ id := "v1", memberId := "m1", clusterId := "A", content := "User has a cat" },
                { id := "v2", memberId := "m2", clusterId := "B", content := "User has a server" }] }

/-- Example store: cluster A with two members and no links. -/
def exStoreA : Store :=
  { clusters := [{ id := "A", name := "Pets", description := "", createdAt := "t0", updatedAt := "t0" }],
    members := [{ id := "m1", clusterId := "A", content := "F1", source := "conversation", importance := 1 / 2, createdAt := "2025-01-01T10:00:00" },
                { id := "m1b", clusterId := "A", content := "F1b", source := "conversation", importance := 1 / 2, createdAt := "2025-01-01T10:05:00" }],
    links := [], vectors := [] }

/-- Embedding oracle that fails on every input (embedding service down). -/
def embFail : String → Option Emb := fun _ => none

/-- Similarity oracle that returns a constant 0. -/
def simZero : Emb → Emb → ℚ := fun _ _ => 0

/-- Store interface whose member insert throws (store connection lost). -/
def failingMemberOps : StoreOps :=
  { pureOps with insertMember := fun _ _ => .error "db connection lost" }

/-- Soundness invariant of fusion-map entries fed by positive-score search
results: at least one component positive, both components nonnegative. -/
def GoodRec (r : FusedRec) : Prop :=
  (0 < r.vectorScore ∨ 0 < r.bm25Score) ∧ 0 ≤ r.vectorScore ∧ 0 ≤ r.bm25Score

/-- Example vector search result: one hit. -/
def exVecHits : List VecHit :=
  [{ messageId := "m1", text := "t1", role := "user", conversationId := "c1",
     similarity := 7 / 10 }]

/-- Example BM25 result set: one keyword-only hit and one shared hit. -/
def exBmHits : List BmHit :=
  [{ messageId := "m2", conversationId := "c2", content := "rare", score := 1 },
   { messageId := "m1", conversationId := "c1", content := "t1", score := 1 / 2 }]

/-- Example messages table backing the BM25-only hit. -/
def exMsgRows : List MessageRow :=
  [{ id := "m2", conversationId := "c2", role := "assistant", content := "rare" }]

/-- Arguments of an assignToCluster call (default thresholds 0.55 and 0.50)
whose single hit has similarity 0.45: above 0.4 but not above the configured
link threshold. -/
def exArgsNoLink : AssignArgs :=
  { fact := "F2", source := "fact-extraction", simThreshold := 11 / 20,
    linkThreshold := 1 / 2,
    hits := some [{ clusterId := "A", distance := 11 / 20 }],
    newName := "General", newClusterId := "C", newMemberId := "mC",
    newVecId := "vC", linkIds := ["L1"], now := "t1" }

/-- Arguments of the cross-link scenario: two hits in cluster A with
similarities 0.6 and 0.4, group mean 0.5, default thresholds. -/
def exArgsLink : AssignArgs :=
  { fact := "F2", source := "fact-extraction", simThreshold := 11 / 20,
    linkThreshold := 1 / 2,
    hits := some [{ clusterId := "A", distance := 2 / 5 },
                  { clusterId := "A", distance := 3 / 5 }],
    newName := "General", newClusterId := "C", newMemberId := "mC",
    newVecId := "vC", linkIds := ["L1", "L2"], now := "t1" }

/-- Cluster row inserted by the new-cluster branch of assignToCluster. -/
def newClusterRowOf (a : AssignArgs) : ClusterRow :=
  { id := a.newClusterId, name := a.newName, description := "",
    createdAt := a.now, updatedAt := a.now }

/-- Member row inserted by assignToCluster. -/
def newMemberRowOf (a : AssignArgs) : MemberRow :=
  { id := a.newMemberId, clusterId := a.newClusterId, content := a.fact,
    source := a.source, importance := 1 / 2, createdAt := a.now }

/-- Vector record inserted by assignToCluster. -/
def newVecRecordOf (a : AssignArgs) : VecRecord :=
  { id := a.newVecId, memberId := a.newMemberId, clusterId := a.newClusterId,
    content := a.fact }

/-- Store state after the new-cluster branch of assignToCluster, before the
cross-linking loop. -/
def newClusterStore (a : AssignArgs) (st : Store) : Store :=
  { clusters := st.clusters ++ [newClusterRowOf a],
    members := st.members ++ [newMemberRowOf a],
    links := st.links,
    vectors := st.vectors ++ [newVecRecordOf a] }

/-- The deduplicated other clusters the cross-linking loop of assignToCluster
visits after the new-cluster branch. -/
def otherClustersOf (a : AssignArgs) (hs : List SearchHit) : List String :=
  (firstDedup ((crossCandidates a.linkThreshold hs).map Prod.fst)).filter
    (fun cid2 => cid2 ≠ a.newClusterId)

/-- Embedding oracle that always succeeds with a fixed vector. -/
def embOne : String → Option Emb := fun _ => some [1]

/-- Similarity oracle that always reports 0.9, above the 0.85 dedup bar. -/
def simHigh : Emb → Emb → ℚ := fun _ _ => 9 / 10

/-- Invariant of the per-section bucket map of appendToMemory: every key is a
section index or the catch-all -1, and keys are unique. -/
def BucketInv (bs : List (Int × List String)) : Prop :=
  (∀ p ∈ bs, p.1 = -1 ∨ 0 ≤ p.1) ∧ (bs.map Prod.fst).Nodup

/- ===================== Theorems ===================== -/

/-- C3: if the completion-service call inside performFlush fails, performFlush
returns the original message list unchanged (and an empty summary, with
nothing written to the daily log): the failure branch yields exactly the
input list, with no partial compaction and no messages dropped. -/
theorem performFlush_error_returns_original
    (llm : String → Except String String) (messages : List Msg) (model : String)
    (e : String) (h : llm (flushUserPrompt messages model) = .error e) :
    performFlush llm messages model =
      { compactedMessages := messages, flushSummary := "", dailyLogAppended := none } := by
  unfold performFlush
  rw [h]

/-- Witness for C3 at a concrete conversation and a failing completion call. -/
theorem performFlush_error_returns_original_witness :
    (fun _ : String => (Except.error "service unavailable" : Except String String))
        (flushUserPrompt [{ role := "user", content := "hi" }] "gpt-4")
      = .error "service unavailable" ∧
    performFlush (fun _ => .error "service unavailable")
        [{ role := "user", content := "hi" }] "gpt-4"
      = { compactedMessages := [{ role := "user", content := "hi" }],
          flushSummary := "", dailyLogAppended := none } :=
  ⟨rfl, performFlush_error_returns_original _ _ _ "service unavailable" rfl⟩

/-- C10: an empty-but-successful completion is treated as success by
performFlush: the returned list is the compacted one (synthetic marker, the
original system message when positionally distinct from the head of the kept
tail, then the last 10 messages), the flush summary is empty, nothing is
appended to the daily log, and (whenever the synthetic marker is not already
among the messages) the original list is not returned. -/
theorem performFlush_emptyOk_compacts
    (llm : String → Except String String) (messages : List Msg) (model : String)
    (h : llm (flushUserPrompt messages model) = .ok "") :
    performFlush llm messages model =
      { compactedMessages := compactMessages messages, flushSummary := "",
        dailyLogAppended := none } ∧
    compactMessages messages =
      syntheticCompactionMsg :: keptSystemMsg messages ++ messages.drop (messages.length - 10) ∧
    (syntheticCompactionMsg ∉ messages → compactMessages messages ≠ messages) := by
  refine ⟨?_, rfl, ?_⟩
  · unfold performFlush
    rw [h]
    rfl
  · intro hnot heq
    exact hnot (heq ▸ List.mem_cons_self syntheticCompactionMsg _)

/-- Witness for C10 on a 12-message conversation with a leading system
message and an always-empty completion service. -/
theorem performFlush_emptyOk_compacts_witness :
    (fun _ : String => (Except.ok "" : Except String String))
        (flushUserPrompt (({ role := "system", content := "sys" } : Msg) ::
          (List.range 11).map (fun i => { role := "user", content := toString i })) "gpt-4")
      = .ok "" ∧
    (performFlush (fun _ => .ok "")
        (({ role := "system", content := "sys" } : Msg) ::
          (List.range 11).map (fun i => { role := "user", content := toString i })) "gpt-4"
      = { compactedMessages := compactMessages (({ role := "system", content := "sys" } : Msg) ::
            (List.range 11).map (fun i => { role := "user", content := toString i })),
          flushSummary := "", dailyLogAppended := none } ∧
     compactMessages (({ role := "system", content := "sys" } : Msg) ::
          (List.range 11).map (fun i => { role := "user", content := toString i })) =
        syntheticCompactionMsg :: keptSystemMsg (({ role := "system", content := "sys" } : Msg) ::
          (List.range 11).map (fun i => { role := "user", content := toString i })) ++
          (({ role := "system", content := "sys" } : Msg) ::
          (List.range 11).map (fun i => { role := "user", content := toString i })).drop
            ((({ role := "system", content := "sys" } : Msg) ::
          (List.range 11).map (fun i => { role := "user", content := toString i })).length - 10) ∧
     (syntheticCompactionMsg ∉ (({ role := "system", content := "sys" } : Msg) ::
          (List.range 11).map (fun i => { role := "user", content := toString i })) →
        compactMessages (({ role := "system", content := "sys" } : Msg) ::
          (List.range 11).map (fun i => { role := "user", content := toString i })) ≠
        (({ role := "system", content := "sys" } : Msg) ::
          (List.range 11).map (fun i => { role := "user", content := toString i })))) :=
  ⟨rfl, performFlush_emptyOk_compacts _ _ _ rfl⟩

/-- C9: the single-flight guard of runMaintenance makes a re-entrant call
return the skipped result without executing any of the four tasks (the shared
state is untouched whatever the task bodies are); a non-skipped cycle applies
auditClusters, cleanupFacts, summarizeDailyLogs and maintainLinks
sequentially in that order; and a task body that throws midway still yields
its task results and does not prevent the remaining tasks of the cycle, as
witnessed by the name log each task writes. -/
theorem runMaintenance_singleFlight_order_isolation :
    (∀ (σ : Type) (t1 : σ → Except (AuditResults × σ) (AuditResults × σ))
       (t2 : σ → Except (CleanupResults × σ) (CleanupResults × σ))
       (t3 : σ → Except (ArchiveResults × σ) (ArchiveResults × σ))
       (t4 : σ → Except (LinkResults × σ) (LinkResults × σ)) (s : σ),
        runMaintenance true t1 t2 t3 t4 s = (.skipped, s)) ∧
    (∀ (a : AuditResults) (c : CleanupResults) (d : ArchiveResults) (l : LinkResults),
        runMaintenance false (okLogTask "auditClusters" a) (okLogTask "cleanupFacts" c)
            (okLogTask "summarizeDailyLogs" d) (okLogTask "maintainLinks" l) [] =
          (.completed a c d l,
           ["auditClusters", "cleanupFacts", "summarizeDailyLogs", "maintainLinks"])) ∧
    (∀ (a : AuditResults) (c : CleanupResults) (d : ArchiveResults) (l : LinkResults),
        runMaintenance false (errLogTask "auditClusters" a) (okLogTask "cleanupFacts" c)
            (okLogTask "summarizeDailyLogs" d) (okLogTask "maintainLinks" l) [] =
          (.completed a c d l,
           ["auditClusters", "cleanupFacts", "summarizeDailyLogs", "maintainLinks"])) ∧
    (∀ (a : AuditResults) (c : CleanupResults) (d : ArchiveResults) (l : LinkResults),
        runMaintenance false (errLogTask "auditClusters" a) (errLogTask "cleanupFacts" c)
            (errLogTask "summarizeDailyLogs" d) (errLogTask "maintainLinks" l) [] =
          (.completed a c d l,
           ["auditClusters", "cleanupFacts", "summarizeDailyLogs", "maintainLinks"])) :=
  ⟨fun _ _ _ _ _ _ => rfl, fun _ _ _ _ => rfl, fun _ _ _ _ => rfl, fun _ _ _ _ => rfl⟩

/-- C1: the zero-member invariant is violated by the code.  An audit move
action that moves the last member out of a cluster leaves that cluster row in
the store with memberCount 0, and its links are not deleted either: on
exStoreAB, moving member m2 from cluster B to cluster A leaves cluster B
present, empty, and still linked. -/
theorem auditMove_leaves_empty_cluster :
    memberCount (applyAuditAction true embFail "fresh" "t1" exStoreAB
      (.move "m2" "B" "A")) "B" = 0 ∧
    ((applyAuditAction true embFail "fresh" "t1" exStoreAB
      (.move "m2" "B" "A")).clusters.any (fun c => c.id = "B")) = true ∧
    ((applyAuditAction true embFail "fresh" "t1" exStoreAB
      (.move "m2" "B" "A")).links.any
        (fun l => l.clusterA = "B" ∨ l.clusterB = "B")) = true := by
  decide

/-- C7: assignToCluster never throws past its boundary: with the database
unavailable it returns the null identifiers and an untouched store; with a
failed embedding it does the same; and when any store primitive inside the
body raises, the outer catch yields the null identifiers instead of
propagating the error. -/
theorem assignToCluster_failClosed :
    (∀ (ops : StoreOps) (embedding : Option Emb) (a : AssignArgs) (st : Store),
        assignToCluster ops false embedding a st = (some st, nullAssign)) ∧
    (∀ (ops : StoreOps) (a : AssignArgs) (st : Store),
        assignToCluster ops true none a st = (some st, nullAssign)) ∧
    (∀ (ops : StoreOps) (embedding : Emb) (a : AssignArgs) (st : Store) (e : String),
        assignBody ops a st = .error e →
        assignToCluster ops true (some embedding) a st = (none, nullAssign)) := by
  refine ⟨fun _ _ _ _ => rfl, fun _ _ _ => rfl, fun ops embedding a st e h => ?_⟩
  simp [assignToCluster, h]

/-- Witness for C7: a member-insert statement that throws makes the whole
call fail closed on a concrete store. -/
theorem assignToCluster_failClosed_witness :
    assignToCluster failingMemberOps false (some [1])
        { fact := "F2", source := "conversation", simThreshold := 11 / 20,
          linkThreshold := 1 / 2, hits := none, newName := "General",
          newClusterId := "C", newMemberId := "mC", newVecId := "vC",
          linkIds := ["L1"], now := "t1" } exStoreAB = (some exStoreAB, nullAssign) ∧
    assignToCluster failingMemberOps true none
        { fact := "F2", source := "conversation", simThreshold := 11 / 20,
          linkThreshold := 1 / 2, hits := none, newName := "General",
          newClusterId := "C", newMemberId := "mC", newVecId := "vC",
          linkIds := ["L1"], now := "t1" } exStoreAB = (some exStoreAB, nullAssign) ∧
    assignBody failingMemberOps
        { fact := "F2", source := "conversation", simThreshold := 11 / 20,
          linkThreshold := 1 / 2, hits := none, newName := "General",
          newClusterId := "C", newMemberId := "mC", newVecId := "vC",
          linkIds := ["L1"], now := "t1" } exStoreAB = .error "db connection lost" ∧
    assignToCluster failingMemberOps true (some [1])
        { fact := "F2", source := "conversation", simThreshold := 11 / 20,
          linkThreshold := 1 / 2, hits := none, newName := "General",
          newClusterId := "C", newMemberId := "mC", newVecId := "vC",
          linkIds := ["L1"], now := "t1" } exStoreAB = (none, nullAssign) :=
  ⟨assignToCluster_failClosed.1 failingMemberOps (some [1]) _ exStoreAB,
   assignToCluster_failClosed.2.1 failingMemberOps _ exStoreAB,
   rfl,
   assignToCluster_failClosed.2.2 failingMemberOps [1] _ exStoreAB "db connection lost" rfl⟩

/-- Helper: a property of entries is preserved along a list fold whose step
preserves it. -/
theorem foldl_mem_preserve {α β : Type} (step : List β → α → List β) (P : β → Prop) :
    ∀ (l : List α) (acc : List β), (∀ p ∈ acc, P p) →
    (∀ acc2 x, x ∈ l → (∀ p ∈ acc2, P p) → ∀ p ∈ step acc2 x, P p) →
    ∀ p ∈ l.foldl step acc, P p := by
  intro l
  induction l with
  | nil => intro acc hacc _ p hp; exact hacc p hp
  | cons a t ih =>
    intro acc hacc hstep p hp
    exact ih (step acc a) (hstep acc a (List.mem_cons_self a t) hacc)
      (fun acc2 x hx => hstep acc2 x (List.mem_cons_of_mem a hx)) p hp

/-- Helper: mapSet preserves an entry property that the new value enjoys. -/
theorem mapSet_forall {P : String × FusedRec → Prop} {m : List (String × FusedRec)}
    {k : String} {v : FusedRec} (h : ∀ p ∈ m, P p) (hv : P (k, v)) :
    ∀ p ∈ mapSet m k v, P p := by
  intro p hp
  unfold mapSet at hp
  split at hp
  · rcases List.mem_map.mp hp with ⟨q, hq, rfl⟩
    by_cases hk : q.1 = k
    · simpa [hk] using hv
    · simpa [hk] using h q hq
  · rcases List.mem_append.mp hp with hp | hp
    · exact h p hp
    · simpa using (List.mem_singleton.mp hp) ▸ hv

/-- Helper: every fusion-map entry seeded from positive-similarity vector
results is good. -/
theorem fuseVector_good (vectorResults : List VecHit)
    (hv : ∀ h ∈ vectorResults, 0 < h.similarity) :
    ∀ p ∈ fuseVector vectorResults, GoodRec p.2 := by
  unfold fuseVector
  refine foldl_mem_preserve _ _ vectorResults [] (by simp) ?_
  intro acc2 x hx hacc2
  refine mapSet_forall hacc2 ?_
  exact ⟨Or.inl (hv x hx), le_of_lt (hv x hx), le_rfl⟩

/-- Helper: merging positive-score BM25 results preserves entry goodness. -/
theorem fuseBm25_good (messages : List MessageRow) (m0 : List (String × FusedRec))
    (bm25Results : List BmHit) (hm0 : ∀ p ∈ m0, GoodRec p.2)
    (hb : ∀ h ∈ bm25Results, 0 < h.score) :
    ∀ p ∈ fuseBm25 messages m0 bm25Results, GoodRec p.2 := by
  unfold fuseBm25
  refine foldl_mem_preserve _ _ bm25Results m0 hm0 ?_
  intro acc2 x hx hacc2 p hp
  dsimp only at hp
  repeat' split at hp
  all_goals
    first
      | exact hacc2 p hp
      | (rcases List.mem_map.mp hp with ⟨q, hq, rfl⟩
         split
         · exact ⟨Or.inr (hb x hx), (hacc2 q hq).2.1, le_of_lt (hb x hx)⟩
         · exact hacc2 q hq)
      | (rcases List.mem_append.mp hp with hp2 | hp2
         · exact hacc2 p hp2
         · have hps := List.mem_singleton.mp hp2
           subst hps
           exact ⟨Or.inr (hb x hx), le_rfl, le_of_lt (hb x hx)⟩)

/-- C2: every record returned by hybridSearch carries the combined score
0.6 times the vector component plus 0.4 times the BM25 component; a record
found by only one search has the other component 0 (components are
nonnegative with at least one positive, given positive-score inputs); the
source tag is vector when the BM25 component is 0, bm25 when the vector
component is 0, and hybrid when both are nonzero; the returned list is
sorted descending by combined score and has at most limit entries. -/
theorem hybridSearch_fusion_spec (vectorResults : List VecHit)
    (bm25Results : List BmHit) (messages : List MessageRow) (limit : Nat)
    (hv : ∀ h ∈ vectorResults, 0 < h.similarity)
    (hb : ∀ h ∈ bm25Results, 0 < h.score) :
    (∀ r ∈ hybridSearch vectorResults bm25Results messages limit,
        r.similarity = (3 / 5) * r.vectorScore + (2 / 5) * r.bm25Score ∧
        0 ≤ r.vectorScore ∧ 0 ≤ r.bm25Score ∧ (0 < r.vectorScore ∨ 0 < r.bm25Score) ∧
        (r.bm25Score = 0 → r.source = "vector") ∧
        (r.vectorScore = 0 → r.source = "bm25") ∧
        (r.vectorScore ≠ 0 → r.bm25Score ≠ 0 → r.source = "hybrid")) ∧
    (hybridSearch vectorResults bm25Results messages limit).Pairwise
      (fun a b => b.similarity ≤ a.similarity) ∧
    (hybridSearch vectorResults bm25Results messages limit).length ≤ limit := by
  have hgood : ∀ p ∈ fuseBm25 messages (fuseVector vectorResults) bm25Results, GoodRec p.2 :=
    fuseBm25_good messages _ bm25Results (fuseVector_good vectorResults hv) hb
  refine ⟨?_, ?_, ?_⟩
  · intro r hr
    have hr1 : r ∈ (((fuseBm25 messages (fuseVector vectorResults) bm25Results).map
        Prod.snd).map combineRec).mergeSort hybridLe := List.mem_of_mem_take hr
    have hr2 : r ∈ ((fuseBm25 messages (fuseVector vectorResults) bm25Results).map
        Prod.snd).map combineRec :=
      (List.mergeSort_perm _ hybridLe).mem_iff.mp hr1
    rcases List.mem_map.mp hr2 with ⟨q, hq, rfl⟩
    rcases List.mem_map.mp hq with ⟨p, hp, rfl⟩
    obtain ⟨hpos, hv0, hb0⟩ := hgood p hp
    refine ⟨rfl, hv0, hb0, hpos, ?_, ?_, ?_⟩
    · intro hbz
      have hbz2 : p.2.bm25Score = 0 := by simpa [combineRec] using hbz
      have hvpos : 0 < p.2.vectorScore := by
        rcases hpos with h | h
        · exact h
        · exact absurd hbz2 (ne_of_gt h)
      simp [combineRec, hbz2, hvpos]
    · intro hvz
      have hvz2 : p.2.vectorScore = 0 := by simpa [combineRec] using hvz
      have hbpos : 0 < p.2.bm25Score := by
        rcases hpos with h | h
        · exact absurd hvz2 (ne_of_gt h)
        · exact h
      simp [combineRec, hvz2, hbpos]
    · intro hvne hbne
      have hvne2 : p.2.vectorScore ≠ 0 := by simpa [combineRec] using hvne
      have hbne2 : p.2.bm25Score ≠ 0 := by simpa [combineRec] using hbne
      simp [combineRec, hvne2, hbne2]
  · have htrans : ∀ a b c : HybridRec,
        hybridLe a b = true → hybridLe b c = true → hybridLe a c = true := by
      intro a b c hab hbc
      simp only [hybridLe, decide_eq_true_eq] at *
      exact le_trans hbc hab
    have htotal : ∀ a b : HybridRec, (hybridLe a b || hybridLe b a) = true := by
      intro a b
      simp only [hybridLe, Bool.or_eq_true, decide_eq_true_eq]
      exact le_total b.similarity a.similarity
    have hs := List.sorted_mergeSort htrans htotal
      (((fuseBm25 messages (fuseVector vectorResults) bm25Results).map Prod.snd).map combineRec)
    have hsub : (hybridSearch vectorResults bm25Results messages limit).Sublist
        ((((fuseBm25 messages (fuseVector vectorResults) bm25Results).map Prod.snd).map
          combineRec).mergeSort hybridLe) := List.take_sublist _ _
    refine (List.Pairwise.sublist hsub hs).imp ?_
    intro a b hab
    simpa [hybridLe, decide_eq_true_eq] using hab
  · calc (hybridSearch vectorResults bm25Results messages limit).length
        ≤ limit ⊓ _ := le_of_eq (List.length_take _ _)
      _ ≤ limit := min_le_left _ _

/-- Witness for C2 on one vector hit, two BM25 hits (one shared identity,
one keyword-only), and the backing message row. -/
theorem hybridSearch_fusion_spec_witness :
    (∀ h ∈ exVecHits, 0 < h.similarity) ∧
    (∀ h ∈ exBmHits, 0 < h.score) ∧
    (∀ r ∈ hybridSearch exVecHits exBmHits exMsgRows 5,
        r.similarity = (3 / 5) * r.vectorScore + (2 / 5) * r.bm25Score ∧
        0 ≤ r.vectorScore ∧ 0 ≤ r.bm25Score ∧ (0 < r.vectorScore ∨ 0 < r.bm25Score) ∧
        (r.bm25Score = 0 → r.source = "vector") ∧
        (r.vectorScore = 0 → r.source = "bm25") ∧
        (r.vectorScore ≠ 0 → r.bm25Score ≠ 0 → r.source = "hybrid")) ∧
    (hybridSearch exVecHits exBmHits exMsgRows 5).Pairwise
      (fun a b => b.similarity ≤ a.similarity) ∧
    (hybridSearch exVecHits exBmHits exMsgRows 5).length ≤ 5 := by
  have hv : ∀ h ∈ exVecHits, 0 < h.similarity := by
    intro x hx
    simp only [exVecHits] at hx
    fin_cases hx
    all_goals norm_num
  have hb : ∀ h ∈ exBmHits, 0 < h.score := by
    intro x hx
    simp only [exBmHits] at hx
    fin_cases hx <;> norm_num
  have main := hybridSearch_fusion_spec exVecHits exBmHits exMsgRows 5 hv hb
  exact ⟨hv, hb, main.1, main.2.1, main.2.2⟩

/-- Helper: a state property closed under the step is preserved by foldl. -/
theorem foldl_state_inv {α σ : Type} (P : σ → Prop) (f : σ → α → σ)
    (hstep : ∀ s a, P s → P (f s a)) :
    ∀ (l : List α) (s : σ), P s → P (l.foldl f s) := by
  intro l
  induction l with
  | nil => intro s hs; exact hs
  | cons a t ih => intro s hs; exact ih (f s a) (hstep s a hs)

/-- Helper: filtering links preserves the link invariants. -/
theorem linksInv_filter (links : List LinkRow) (p : LinkRow → Bool)
    (h : LinksInv links) : LinksInv (links.filter p) :=
  ⟨List.Pairwise.sublist (List.filter_sublist _) h.1,
   fun l hl => h.2 l (List.mem_of_mem_filter hl)⟩

/-- Helper: rewriting one strength to a value in the unit interval preserves
the link invariants (pairs and endpoints are untouched). -/
theorem linksInv_updateStrength (links : List LinkRow) (lid : String) (s : ℚ)
    (hs0 : 0 ≤ s) (hs1 : s ≤ 1) (h : LinksInv links) :
    LinksInv (links.map (fun l => if l.id = lid then { l with strength := s } else l)) := by
  have hfa : ∀ x : LinkRow,
      ((fun l => if l.id = lid then { l with strength := s } else l) x).clusterA = x.clusterA := by
    intro x; by_cases hx : x.id = lid <;> simp [hx]
  have hfb : ∀ x : LinkRow,
      ((fun l => if l.id = lid then { l with strength := s } else l) x).clusterB = x.clusterB := by
    intro x; by_cases hx : x.id = lid <;> simp [hx]
  constructor
  · rw [List.pairwise_map]
    refine h.1.imp ?_
    intro a b hab hsp
    apply hab
    unfold samePair pairOf at *
    rw [hfa, hfb, hfa, hfb] at hsp
    exact hsp
  · intro l hl
    rcases List.mem_map.mp hl with ⟨y, hy, rfl⟩
    obtain ⟨hne, h0, h1⟩ := h.2 y hy
    by_cases hx : y.id = lid
    · simp only [hx, if_pos]
      exact ⟨hne, hs0, hs1⟩
    · simp only [hx, if_neg, ite_false]
      exact ⟨hne, h0, h1⟩

/-- Helper: createOrStrengthenLink with the pure store semantics preserves
the link invariants: self-links are refused, a strengthened link stays in
the unit interval, and a fresh link is only inserted when no row for the
unordered pair exists in either direction. -/
theorem linksInv_createOrStrengthen (linkId a b : String) (st : Store)
    (h : LinksInv st.links) : LinksInv (createOrStrengthenLink linkId a b st).links := by
  unfold createOrStrengthenLink createOrStrengthenLinkOps pureOps
  by_cases hab : a = b
  · simpa [hab] using h
  · simp only [hab, if_neg, ite_false]
    cases hfind : findLinkEither st.links a b with
    | some l =>
      simp only
      have hl := h.2 l (List.mem_of_find?_eq_some hfind)
      refine linksInv_updateStrength st.links l.id (min 1 (l.strength + 1 / 10)) ?_ ?_ h
      · have := hl.2.1
        refine le_min (by norm_num) (by linarith)
      · exact min_le_left _ _
    | none =>
      simp only
      constructor
      · rw [List.pairwise_append]
        refine ⟨h.1, List.pairwise_singleton _ _, ?_⟩
        intro x hx y hy
        have hyeq := List.mem_singleton.mp hy
        subst hyeq
        have hnot := List.find?_eq_none.mp hfind x hx
        simp only [decide_eq_true_eq] at hnot
        unfold samePair pairOf
        exact hnot
      · intro l hl
        rcases List.mem_append.mp hl with hl | hl
        · exact h.2 l hl
        · have hleq := List.mem_singleton.mp hl
          subst hleq
          exact ⟨hab, by norm_num, by norm_num⟩

/-- Helper: the co-occurrence strengthening of maintainLinks preserves the
link invariants. -/
theorem linksInv_strengthenPair (links : List LinkRow) (x y : String)
    (h : LinksInv links) : LinksInv (strengthenPair links x y) := by
  unfold strengthenPair
  cases hfind : findLinkEither links x y with
  | some l =>
    simp only
    split
    · have hl := h.2 l (List.mem_of_find?_eq_some hfind)
      refine linksInv_updateStrength links l.id (min 1 (l.strength + 1 / 20)) ?_ ?_ h
      · have := hl.2.1
        refine le_min (by norm_num) (by linarith)
      · exact min_le_left _ _
    · exact h
  | none => exact h

/-- C6: for every pair of distinct clusters at most one cluster_links row
exists regardless of orientation, no row links a cluster to itself, and
every strength stays within the unit interval: the invariants are preserved
by createOrStrengthenLink (creation at 0.5, strengthening by 0.1 capped at
1.0), by maintainLinks (pruning below 0.3 and strengthening by 0.05 capped
at 1.0), and by the cross-linking loop of assignToCluster. -/
theorem clusterLinks_invariant_preserved :
    (∀ (linkId a b : String) (st : Store), LinksInv st.links →
        LinksInv (createOrStrengthenLink linkId a b st).links) ∧
    (∀ st : Store, LinksInv st.links → LinksInv (maintainLinks st).links) ∧
    (∀ (win : String) (others ids : List String) (st : Store), LinksInv st.links →
        LinksInv (linkFold pureOps win others ids st).links) := by
  have hstep := linksInv_createOrStrengthen
  refine ⟨hstep, ?_, ?_⟩
  · intro st h
    unfold maintainLinks
    simp only
    have hpruned : LinksInv (st.links.filter (fun l => ¬ l.strength < 3 / 10)) :=
      linksInv_filter st.links _ h
    refine foldl_state_inv LinksInv _ ?_ _ _ hpruned
    intro links g hlinks
    dsimp only
    split
    · exact hlinks
    · exact foldl_state_inv LinksInv _
        (fun ls p hls => linksInv_strengthenPair ls p.1 p.2 hls) _ links hlinks
  · intro win others ids st h
    unfold linkFold
    have := foldl_state_inv (fun p : Store × List String => LinksInv p.1.links)
      (fun p oc => (createOrStrengthenLinkOps pureOps (p.2.headD "link") win oc p.1, p.2.drop 1))
      (fun p oc hp => hstep (p.2.headD "link") win oc p.1 hp) others (st, ids) h
    exact this

/-- Witness for C6 on the example store with one A-B link of strength 0.5. -/
theorem clusterLinks_invariant_preserved_witness :
    LinksInv exStoreAB.links ∧
    LinksInv (createOrStrengthenLink "L2" "A" "C" exStoreAB).links ∧
    LinksInv (createOrStrengthenLink "L3" "B" "A" exStoreAB).links ∧
    LinksInv (maintainLinks exStoreAB).links ∧
    LinksInv (linkFold pureOps "C" ["A", "B"] ["L4", "L5"] exStoreAB).links := by
  have hinv : LinksInv exStoreAB.links := by
    constructor
    · simp [exStoreAB]
    · intro l hl
      simp only [exStoreAB, List.mem_singleton] at hl
      subst hl
      refine ⟨by simp, by norm_num, by norm_num⟩
  exact ⟨hinv,
    clusterLinks_invariant_preserved.1 "L2" "A" "C" exStoreAB hinv,
    clusterLinks_invariant_preserved.1 "L3" "B" "A" exStoreAB hinv,
    clusterLinks_invariant_preserved.2.1 exStoreAB hinv,
    clusterLinks_invariant_preserved.2.2 "C" ["A", "B"] ["L4", "L5"] exStoreAB hinv⟩

/-- C5 counterexample: with the default configuration
(clusterLinkThreshold = 0.50), a hit of similarity 0.45 from another cluster
is above the 0.4 threshold the claim names, yet assignToCluster creates the
new cluster without any ClusterLink: the claim as stated is false on the
code. -/
theorem assignToCluster_hit_above_04_no_link :
    ((1 : ℚ) - 11 / 20 > 2 / 5) ∧
    ((assignToCluster pureOps true (some [1]) exArgsNoLink exStoreA).2.isNew = true) ∧
    ((assignToCluster pureOps true (some [1]) exArgsNoLink exStoreA).1.map Store.links
      = some []) := by
  have hbody : assignBody pureOps exArgsNoLink exStoreA = .ok
      ({ clusters := [{ id := "A", name := "Pets", description := "", createdAt := "t0", updatedAt := "t0" },
                      { id := "C", name := "General", description := "", createdAt := "t1", updatedAt := "t1" }],
         members := [{ id := "m1", clusterId := "A", content := "F1", source := "conversation", importance := 1 / 2, createdAt := "2025-01-01T10:00:00" },
                     { id := "m1b", clusterId := "A", content := "F1b", source := "conversation", importance := 1 / 2, createdAt := "2025-01-01T10:05:00" },
                     { id := "mC", clusterId := "C", content := "F2", source := "fact-extraction", importance := 1 / 2, createdAt := "t1" }],
         links := [],
         vectors := [{ id := "vC", memberId := "mC", clusterId := "C", content := "F2" }] },
       { clusterId := some "C", clusterName := some "General", isNew := true }) := by
    simp [assignBody, pureOps, exArgsNoLink, groupScores, bestCluster, crossCandidates,
      firstDedup, linkFold, createOrStrengthenLinkOps, findLinkEither, exStoreA, bind,
      Except.bind, pure, Except.pure]
    norm_num
  refine ⟨by norm_num, ?_, ?_⟩ <;> simp [assignToCluster, hbody]

/-- Helper: membership in the Set-spread step. -/
theorem mem_ins {α : Type} [DecidableEq α] (acc : List α) (a x : α) :
    x ∈ (if a ∈ acc then acc else acc ++ [a]) ↔ x ∈ acc ∨ x = a := by
  split
  · constructor
    · exact Or.inl
    · rintro (hx | rfl)
      · exact hx
      · assumption
  · simp [List.mem_append]

/-- Helper: membership in the JS Set spread is membership in the source. -/
theorem mem_firstDedup {α : Type} [DecidableEq α] (l : List α) (x : α) :
    x ∈ firstDedup l ↔ x ∈ l := by
  suffices h : ∀ (l : List α) (acc : List α),
      x ∈ l.foldl (fun acc y => if y ∈ acc then acc else acc ++ [y]) acc ↔ x ∈ acc ∨ x ∈ l by
    simpa [firstDedup] using h l []
  intro l
  induction l with
  | nil => intro acc; simp
  | cons a t ih =>
    intro acc
    rw [List.foldl_cons, ih, mem_ins]
    constructor
    · rintro ((hx | rfl) | hx)
      · exact Or.inl hx
      · exact Or.inr (List.mem_cons_self _ _)
      · exact Or.inr (List.mem_cons_of_mem _ hx)
    · rintro (hx | hx)
      · exact Or.inl (Or.inl hx)
      · rcases List.mem_cons.mp hx with rfl | hx
        · exact Or.inl (Or.inr rfl)
        · exact Or.inr hx

/-- Helper: the JS Set spread has no duplicates. -/
theorem nodup_firstDedup {α : Type} [DecidableEq α] (l : List α) :
    (firstDedup l).Nodup := by
  suffices h : ∀ (l : List α) (acc : List α), acc.Nodup →
      (l.foldl (fun acc y => if y ∈ acc then acc else acc ++ [y]) acc).Nodup by
    exact h l [] List.nodup_nil
  intro l
  induction l with
  | nil => intro acc hacc; exact hacc
  | cons a t ih =>
    intro acc hacc
    rw [List.foldl_cons]
    refine ih _ ?_
    split
    · exact hacc
    · next hmem =>
      exact List.Nodup.append hacc (List.nodup_singleton a)
        (by simpa [List.disjoint_singleton] using hmem)

/-- Helper: the JS Set spread is no longer than the source. -/
theorem length_firstDedup_le {α : Type} [DecidableEq α] (l : List α) :
    (firstDedup l).length ≤ l.length := by
  suffices h : ∀ (l : List α) (acc : List α),
      (l.foldl (fun acc y => if y ∈ acc then acc else acc ++ [y]) acc).length
        ≤ acc.length + l.length by
    simpa [firstDedup] using h l []
  intro l
  induction l with
  | nil => intro acc; simp
  | cons a t ih =>
    intro acc
    rw [List.foldl_cons]
    refine le_trans (ih _) ?_
    have hlen : (if a ∈ acc then acc else acc ++ [a]).length ≤ acc.length + 1 := by
      split
      · omega
      · simp
    rw [List.length_cons]
    omega

/-- Helper: createOrStrengthenLink with the pure store semantics, reduced to
its store effect. -/
theorem createOrStrengthen_pure_eq (lid a b : String) (st : Store) :
    createOrStrengthenLink lid a b st =
      if a = b then st
      else
        match findLinkEither st.links a b with
        | some l =>
          { st with links := st.links.map (fun x =>
              if x.id = l.id then { x with strength := min 1 (l.strength + 1 / 10) } else x) }
        | none =>
          { st with links := st.links ++
              [{ id := lid, clusterA := a, clusterB := b, strength := 1 / 2 }] } := by
  by_cases hab : a = b
  · simp [createOrStrengthenLink, createOrStrengthenLinkOps, hab]
  · cases hfind : findLinkEither st.links a b with
    | some l =>
      simp [createOrStrengthenLink, createOrStrengthenLinkOps, pureOps, hab, hfind]
    | none =>
      simp [createOrStrengthenLink, createOrStrengthenLinkOps, pureOps, hab, hfind]

/-- Helper: a row found for a pair satisfies that pair. -/
theorem pairOf_of_findLinkEither {links : List LinkRow} {a b : String} {l : LinkRow}
    (h : findLinkEither links a b = some l) : pairOf l a b := by
  have := List.find?_some h
  simpa [pairOf, decide_eq_true_eq] using this

/-- Helper: a row cannot pair a winner with two different other clusters. -/
theorem pairOf_unique_other {l : LinkRow} {win c c2 : String}
    (h1 : pairOf l win c) (h2 : pairOf l win c2)
    (hcw : c ≠ win) (hc2w : c2 ≠ win) : c = c2 := by
  rcases h1 with ⟨ha1, hb1⟩ | ⟨ha1, hb1⟩ <;> rcases h2 with ⟨ha2, hb2⟩ | ⟨ha2, hb2⟩
  · exact hb1.symm.trans hb2
  · exact absurd (ha2.symm.trans ha1) hc2w
  · exact absurd (ha1.symm.trans ha2) hcw
  · exact ha1.symm.trans ha2

/-- Helper: createOrStrengthenLink keeps every row of an unrelated pair
unchanged (the update is keyed by row id, unique in a well-formed store). -/
theorem createOrStrengthen_frame (lid win c2 : String) (st : Store) (l : LinkRow)
    (hl : l ∈ st.links) (hidn : (st.links.map LinkRow.id).Nodup)
    (hnp : ¬ pairOf l win c2) :
    l ∈ (createOrStrengthenLink lid win c2 st).links := by
  rw [createOrStrengthen_pure_eq]
  split
  · exact hl
  · cases hfind : findLinkEither st.links win c2 with
    | some l2 =>
      simp only
      have hl2mem := List.mem_of_find?_eq_some hfind
      have hl2pair := pairOf_of_findLinkEither hfind
      have hne : l ≠ l2 := fun h => hnp (h ▸ hl2pair)
      have hid : l.id ≠ l2.id := fun h => hne (List.inj_on_of_nodup_map hidn hl hl2mem h)
      refine List.mem_map.mpr ⟨l, hl, ?_⟩
      simp [hid]
    | none =>
      simp only
      exact List.mem_append.mpr (Or.inl hl)

/-- Helper: createOrStrengthenLink leaves a row for the pair it was called
on, with the capped-increment strength of the pre-state link or the initial
0.5. -/
theorem createOrStrengthen_establishes (lid win c2 : String) (st : Store)
    (hne : win ≠ c2) :
    ∃ l ∈ (createOrStrengthenLink lid win c2 st).links,
      pairOf l win c2 ∧ l.strength = expectedStrength st.links win c2 := by
  rw [createOrStrengthen_pure_eq, if_neg hne]
  cases hfind : findLinkEither st.links win c2 with
  | some l2 =>
    have hl2mem := List.mem_of_find?_eq_some hfind
    have hl2pair := pairOf_of_findLinkEither hfind
    refine ⟨{ l2 with strength := min 1 (l2.strength + 1 / 10) }, ?_, ?_, ?_⟩
    · exact List.mem_map.mpr ⟨l2, hl2mem, by simp⟩
    · simpa [pairOf] using hl2pair
    · simp [expectedStrength, hfind]
  | none =>
    refine ⟨{ id := lid, clusterA := win, clusterB := c2, strength := 1 / 2 },
      List.mem_append.mpr (Or.inr (List.mem_singleton.mpr rfl)), Or.inl ⟨rfl, rfl⟩, ?_⟩
    simp [expectedStrength, hfind]

/-- Helper: createOrStrengthenLink keeps row ids unique and does not use up
any fresh id other than the one it was given. -/
theorem createOrStrengthen_idNodup (lid win c2 : String) (st : Store)
    (hidn : (st.links.map LinkRow.id).Nodup) (hfresh : ∀ l ∈ st.links, lid ≠ l.id) :
    ((createOrStrengthenLink lid win c2 st).links.map LinkRow.id).Nodup ∧
    ∀ i, (∀ l ∈ st.links, i ≠ l.id) → i ≠ lid →
      ∀ l ∈ (createOrStrengthenLink lid win c2 st).links, i ≠ l.id := by
  rw [createOrStrengthen_pure_eq]
  split
  · exact ⟨hidn, fun i hi _ => hi⟩
  · cases hfind : findLinkEither st.links win c2 with
    | some l2 =>
      simp only
      have hids : (st.links.map (fun x =>
          if x.id = l2.id then { x with strength := min 1 (l2.strength + 1 / 10) } else x)).map
            LinkRow.id = st.links.map LinkRow.id := by
        rw [List.map_map]
        refine List.map_congr_left ?_
        intro x _
        by_cases h : x.id = l2.id <;> simp [h]
      constructor
      · rw [hids]
        exact hidn
      · intro i hi _ l hl
        rcases List.mem_map.mp hl with ⟨y, hy, rfl⟩
        have : ((fun x => if x.id = l2.id then
            { x with strength := min 1 (l2.strength + 1 / 10) } else x) y).id = y.id := by
          by_cases h : y.id = l2.id <;> simp [h]
        rw [this]
        exact hi y hy
    | none =>
      simp only
      constructor
      · rw [List.map_append]
        refine List.Nodup.append hidn (List.nodup_singleton _) ?_
        rw [List.map_singleton, List.disjoint_singleton]
        intro hmem
        rcases List.mem_map.mp hmem with ⟨y, hy, hyid⟩
        exact hfresh y hy hyid.symm
      · intro i hi hilid l hl
        rcases List.mem_append.mp hl with hl | hl
        · exact hi l hl
        · have := List.mem_singleton.mp hl
          subst this
          exact hilid

/-- Helper: createOrStrengthenLink on one pair does not change what a lookup
of a different pair (sharing the winner) finds. -/
theorem createOrStrengthen_find_stable (lid win c2 c : String) (st : Store)
    (hcc : c ≠ c2) (hcw : c ≠ win) (hc2w : c2 ≠ win)
    (hidn : (st.links.map LinkRow.id).Nodup) :
    findLinkEither (createOrStrengthenLink lid win c2 st).links win c
      = findLinkEither st.links win c := by
  rw [createOrStrengthen_pure_eq]
  split
  · rfl
  · cases hfind : findLinkEither st.links win c2 with
    | some l2 =>
      simp only
      unfold findLinkEither
      rw [List.find?_map]
      have hcomp : ((fun l : LinkRow => decide ((l.clusterA = win ∧ l.clusterB = c) ∨
            (l.clusterA = c ∧ l.clusterB = win))) ∘ (fun x =>
              if x.id = l2.id then { x with strength := min 1 (l2.strength + 1 / 10) } else x))
          = (fun l : LinkRow => decide ((l.clusterA = win ∧ l.clusterB = c) ∨
            (l.clusterA = c ∧ l.clusterB = win))) := by
        funext x
        by_cases h : x.id = l2.id <;> simp [h]
      rw [hcomp]
      cases hf3 : List.find? (fun l : LinkRow => decide ((l.clusterA = win ∧ l.clusterB = c) ∨
          (l.clusterA = c ∧ l.clusterB = win))) st.links with
      | none => rfl
      | some l3 =>
        have hl3mem := List.mem_of_find?_eq_some hf3
        have hl3pair : pairOf l3 win c := by
          simpa [pairOf, decide_eq_true_eq] using List.find?_some hf3
        have hl2mem := List.mem_of_find?_eq_some hfind
        have hl2pair := pairOf_of_findLinkEither hfind
        have hne : l3 ≠ l2 := fun h =>
          hcc (pairOf_unique_other (h ▸ hl3pair) hl2pair hcw hc2w)
        have hid : l3.id ≠ l2.id := fun h =>
          hne (List.inj_on_of_nodup_map hidn hl3mem hl2mem h)
        simp [hid]
    | none =>
      simp only
      unfold findLinkEither
      rw [List.find?_append]
      have hp : (fun l : LinkRow => decide ((l.clusterA = win ∧ l.clusterB = c) ∨
          (l.clusterA = c ∧ l.clusterB = win)))
          { id := lid, clusterA := win, clusterB := c2, strength := 1 / 2 } = false := by
        simp only [decide_eq_false_iff_not]
        rintro (⟨-, h2⟩ | ⟨h1, -⟩)
        · exact hcc h2.symm
        · exact hcw h1.symm
      simp [List.find?, hp, Ne.symm hcc, Ne.symm hcw]

/-- Helper: unfolding one step of the cross-linking loop. -/
theorem linkFold_cons (win c0 : String) (rest ids : List String) (st : Store) :
    linkFold pureOps win (c0 :: rest) ids st =
      linkFold pureOps win rest (ids.drop 1)
        (createOrStrengthenLink (ids.headD "link") win c0 st) := rfl

/-- Helper: the cross-linking loop keeps every row of a pair it never links
unchanged (given unique row ids and fresh supplied ids). -/
theorem linkFold_preserves (win : String) :
    ∀ (cs ids : List String) (st : Store) (l : LinkRow),
      l ∈ st.links → (st.links.map LinkRow.id).Nodup →
      (∀ i ∈ ids, ∀ l2 ∈ st.links, i ≠ l2.id) → ids.Nodup →
      cs.length ≤ ids.length →
      (∀ c2 ∈ cs, ¬ pairOf l win c2) →
      l ∈ (linkFold pureOps win cs ids st).links := by
  intro cs
  induction cs with
  | nil =>
    intro ids st l hl _ _ _ _ _
    exact hl
  | cons c0 rest ih =>
    intro ids st l hl hidn hfresh hidsnodup hlen hnp
    cases ids with
    | nil => simp at hlen
    | cons i0 ids2 =>
      rw [linkFold_cons]
      simp only [List.headD_cons, List.drop_one, List.tail_cons]
      have hfresh0 : ∀ l2 ∈ st.links, i0 ≠ l2.id :=
        hfresh i0 (List.mem_cons_self _ _)
      have hstep := createOrStrengthen_idNodup i0 win c0 st hidn hfresh0
      refine ih ids2 _ l ?_ hstep.1 ?_ (List.Nodup.of_cons hidsnodup) ?_ ?_
      · exact createOrStrengthen_frame i0 win c0 st l hl hidn
          (hnp c0 (List.mem_cons_self _ _))
      · intro i hi l2 hl2
        have hii0 : i ≠ i0 := by
          intro h
          subst h
          exact (List.nodup_cons.mp hidsnodup).1 hi
        exact hstep.2 i (fun l3 h3 => hfresh i (List.mem_cons_of_mem _ hi) l3 h3) hii0 l2 hl2
      · simpa using Nat.le_of_succ_le_succ (by simpa using hlen)
      · intro c2 h2
        exact hnp c2 (List.mem_cons_of_mem _ h2)

/-- Helper: after the cross-linking loop, every listed other cluster has a
link row to the winner whose strength is the capped increment of the
pre-state link, or the initial 0.5. -/
theorem linkFold_spec (win : String) :
    ∀ (others ids : List String) (st : Store),
      (∀ c ∈ others, c ≠ win) → others.Nodup →
      (st.links.map LinkRow.id).Nodup →
      (∀ i ∈ ids, ∀ l ∈ st.links, i ≠ l.id) → ids.Nodup →
      others.length ≤ ids.length →
      ∀ c ∈ others,
        ∃ l ∈ (linkFold pureOps win others ids st).links,
          pairOf l win c ∧ l.strength = expectedStrength st.links win c := by
  intro others
  induction others with
  | nil =>
    intro ids st _ _ _ _ _ _ c hc
    exact absurd hc (List.not_mem_nil c)
  | cons c0 rest ih =>
    intro ids st hwin hnodup hidn hfresh hidsnodup hlen c hc
    cases ids with
    | nil => simp at hlen
    | cons i0 ids2 =>
      rw [linkFold_cons]
      simp only [List.headD_cons, List.drop_one, List.tail_cons]
      have hc0w : c0 ≠ win := hwin c0 (List.mem_cons_self _ _)
      have hfresh0 : ∀ l2 ∈ st.links, i0 ≠ l2.id :=
        hfresh i0 (List.mem_cons_self _ _)
      have hstep := createOrStrengthen_idNodup i0 win c0 st hidn hfresh0
      have hfresh2 : ∀ i ∈ ids2, ∀ l ∈ (createOrStrengthenLink i0 win c0 st).links, i ≠ l.id := by
        intro i hi l2 hl2
        have hii0 : i ≠ i0 := by
          intro h
          subst h
          exact (List.nodup_cons.mp hidsnodup).1 hi
        exact hstep.2 i (fun l3 h3 => hfresh i (List.mem_cons_of_mem _ hi) l3 h3) hii0 l2 hl2
      have hlen2 : rest.length ≤ ids2.length := by
        simpa using Nat.le_of_succ_le_succ (by simpa using hlen)
      rcases List.mem_cons.mp hc with rfl | hc
      · obtain ⟨l, hlmem, hlpair, hlstr⟩ :=
          createOrStrengthen_establishes i0 win c st (Ne.symm hc0w)
        refine ⟨l, ?_, hlpair, hlstr⟩
        refine linkFold_preserves win rest ids2 _ l hlmem hstep.1 hfresh2
          (List.Nodup.of_cons hidsnodup) hlen2 ?_
        intro c2 h2 hp2
        have hc2c0 : c2 ≠ c := by
          intro h
          subst h
          exact (List.nodup_cons.mp hnodup).1 h2
        exact hc2c0 (pairOf_unique_other hp2 hlpair (hwin c2 (List.mem_cons_of_mem _ h2)) hc0w)
      · have hres := ih ids2 (createOrStrengthenLink i0 win c0 st)
          (fun c2 h2 => hwin c2 (List.mem_cons_of_mem _ h2))
          (List.Nodup.of_cons hnodup) hstep.1 hfresh2
          (List.Nodup.of_cons hidsnodup) hlen2 c hc
        obtain ⟨l, hlmem, hlpair, hlstr⟩ := hres
        refine ⟨l, hlmem, hlpair, ?_⟩
        rw [hlstr]
        have hcc0 : c ≠ c0 := fun h => (List.nodup_cons.mp hnodup).1 (h ▸ hc)
        have hstable := createOrStrengthen_find_stable i0 win c0 c st hcc0
          (hwin c (List.mem_cons_of_mem _ hc)) hc0w hidn
        simp only [expectedStrength, hstable]

/-- Helper: createOrStrengthenLink only changes the links table. -/
theorem createOrStrengthen_nonlinks (lid a b : String) (st : Store) :
    (createOrStrengthenLink lid a b st).clusters = st.clusters ∧
    (createOrStrengthenLink lid a b st).members = st.members := by
  rw [createOrStrengthen_pure_eq]
  split
  · exact ⟨rfl, rfl⟩
  · cases findLinkEither st.links a b <;> exact ⟨rfl, rfl⟩

/-- Helper: the cross-linking loop only changes the links table. -/
theorem linkFold_nonlinks (win : String) :
    ∀ (cs ids : List String) (st : Store),
      (linkFold pureOps win cs ids st).clusters = st.clusters ∧
      (linkFold pureOps win cs ids st).members = st.members := by
  intro cs
  induction cs with
  | nil => intro ids st; exact ⟨rfl, rfl⟩
  | cons c0 rest ih =>
    intro ids st
    rw [linkFold_cons]
    have hstep := createOrStrengthen_nonlinks (ids.headD "link") win c0 st
    have hrest := ih (ids.drop 1) (createOrStrengthenLink (ids.headD "link") win c0 st)
    exact ⟨hrest.1.trans hstep.1, hrest.2.trans hstep.2⟩

/-- Helper: assignBody with the pure store semantics, in the new-cluster
branch, reduced to its store effect. -/
theorem assignBody_pure_new (a : AssignArgs) (st : Store) (hs : List SearchHit)
    (hhits : a.hits = some hs) (hcond : newClusterCond a.simThreshold hs) :
    assignBody pureOps a st = .ok
      (linkFold pureOps a.newClusterId (otherClustersOf a hs) a.linkIds (newClusterStore a st),
       { clusterId := some a.newClusterId, clusterName := some a.newName, isNew := true }) := by
  unfold assignBody
  rw [hhits]
  simp only [bind, Except.bind, pure, Except.pure, pureOps]
  split
  · rfl
  · next hneg =>
    exact absurd hcond hneg

/-- C5 (amended: the cross-link threshold is the configured
clusterLinkThreshold, default 0.50, not 0.4): when the best cluster group
has mean similarity at most the similarity threshold, or there are no vector
hits that beat mean 0, assignToCluster creates a new cluster with the fresh
id and generated name and inserts the member row into it; for every other
cluster that contributed a hit with similarity strictly above the configured
link threshold, a ClusterLink to the new cluster exists afterwards, with
strength 0.5 when no link existed and the by-0.1-capped-at-1.0 increment of
the previous strength otherwise.  The witness instantiates the concrete
scenario of the claim: hits of similarity 0.6 and 0.4 in cluster A (group
mean 0.5) create cluster C plus a C-A link row of strength 0.5. -/
theorem assignToCluster_newCluster_crossLink_spec :
    (∀ (a : AssignArgs) (st : Store) (e : Emb) (hs : List SearchHit),
        a.hits = some hs → newClusterCond a.simThreshold hs →
        (assignToCluster pureOps true (some e) a st).2 =
          { clusterId := some a.newClusterId, clusterName := some a.newName, isNew := true } ∧
        ∃ st2, (assignToCluster pureOps true (some e) a st).1 = some st2 ∧
          newClusterRowOf a ∈ st2.clusters ∧ newMemberRowOf a ∈ st2.members) ∧
    (∀ (a : AssignArgs) (st : Store) (e : Emb) (hs : List SearchHit) (c : String),
        a.hits = some hs → newClusterCond a.simThreshold hs →
        (st.links.map LinkRow.id).Nodup →
        (∀ i ∈ a.linkIds, ∀ l ∈ st.links, i ≠ l.id) → a.linkIds.Nodup →
        hs.length ≤ a.linkIds.length →
        c ≠ a.newClusterId →
        (∃ h ∈ hs, h.clusterId = c ∧ 1 - h.distance > a.linkThreshold) →
        ∃ st2, (assignToCluster pureOps true (some e) a st).1 = some st2 ∧
          ∃ l ∈ st2.links, pairOf l a.newClusterId c ∧
            l.strength = expectedStrength st.links a.newClusterId c) := by
  refine ⟨?_, ?_⟩
  · intro a st e hs hhits hcond
    have hbody := assignBody_pure_new a st hs hhits hcond
    constructor
    · simp [assignToCluster, hbody]
    · refine ⟨linkFold pureOps a.newClusterId (otherClustersOf a hs) a.linkIds
        (newClusterStore a st), by simp [assignToCluster, hbody], ?_, ?_⟩
      · rw [(linkFold_nonlinks a.newClusterId (otherClustersOf a hs) a.linkIds
          (newClusterStore a st)).1]
        exact List.mem_append.mpr (Or.inr (List.mem_singleton.mpr rfl))
      · rw [(linkFold_nonlinks a.newClusterId (otherClustersOf a hs) a.linkIds
          (newClusterStore a st)).2]
        exact List.mem_append.mpr (Or.inr (List.mem_singleton.mpr rfl))
  · intro a st e hs c hhits hcond hidn hfresh hids hlen hcnew hhit
    have hbody := assignBody_pure_new a st hs hhits hcond
    refine ⟨linkFold pureOps a.newClusterId (otherClustersOf a hs) a.linkIds
      (newClusterStore a st), by simp [assignToCluster, hbody], ?_⟩
    obtain ⟨h0, hmem0, hcid0, hgt0⟩ := hhit
    have hcand : (c, 1 - h0.distance) ∈ crossCandidates a.linkThreshold hs := by
      refine List.mem_filterMap.mpr ⟨h0, hmem0, ?_⟩
      rw [if_pos hgt0, hcid0]
    have hcmem : c ∈ otherClustersOf a hs := by
      refine List.mem_filter.mpr ⟨?_, by simpa using hcnew⟩
      exact (mem_firstDedup _ c).mpr
        (List.mem_map.mpr ⟨(c, 1 - h0.distance), hcand, rfl⟩)
    have hlinks : (newClusterStore a st).links = st.links := rfl
    have hspec := linkFold_spec a.newClusterId (otherClustersOf a hs) a.linkIds
      (newClusterStore a st)
      (fun c2 h2 => by simpa using (List.mem_filter.mp h2).2)
      (List.Nodup.sublist (List.filter_sublist _) (nodup_firstDedup _))
      (by rw [hlinks]; exact hidn)
      (by rw [hlinks]; exact hfresh)
      hids
      ?_
      c hcmem
    · rw [hlinks] at hspec
      exact hspec
    · calc (otherClustersOf a hs).length
          ≤ (firstDedup ((crossCandidates a.linkThreshold hs).map Prod.fst)).length :=
            (List.filter_sublist _).length_le
        _ ≤ ((crossCandidates a.linkThreshold hs).map Prod.fst).length :=
            length_firstDedup_le _
        _ = (crossCandidates a.linkThreshold hs).length := List.length_map _ _
        _ ≤ hs.length := List.length_filterMap_le _ _
        _ ≤ a.linkIds.length := hlen

/-- Witness for C5 instantiating the cross-link scenario of the claim: two
hits in cluster A with similarities 0.6 and 0.4 (group mean 0.5, at most the
0.55 threshold) make assignToCluster create cluster C with the new member,
and the 0.6 hit (above the configured 0.50 link threshold) yields a C-A
ClusterLink of strength 0.5. -/
theorem assignToCluster_newCluster_crossLink_spec_witness :
    exArgsLink.hits = some [{ clusterId := "A", distance := 2 / 5 },
      { clusterId := "A", distance := 3 / 5 }] ∧
    newClusterCond exArgsLink.simThreshold [{ clusterId := "A", distance := 2 / 5 },
      { clusterId := "A", distance := 3 / 5 }] ∧
    ((assignToCluster pureOps true (some [1]) exArgsLink exStoreA).2 =
      { clusterId := some exArgsLink.newClusterId, clusterName := some exArgsLink.newName,
        isNew := true } ∧
     ∃ st2, (assignToCluster pureOps true (some [1]) exArgsLink exStoreA).1 = some st2 ∧
       newClusterRowOf exArgsLink ∈ st2.clusters ∧ newMemberRowOf exArgsLink ∈ st2.members) ∧
    (∃ st2, (assignToCluster pureOps true (some [1]) exArgsLink exStoreA).1 = some st2 ∧
      ∃ l ∈ st2.links, pairOf l exArgsLink.newClusterId "A" ∧
        l.strength = expectedStrength exStoreA.links exArgsLink.newClusterId "A") := by
  have hhits : exArgsLink.hits = some [{ clusterId := "A", distance := 2 / 5 },
      { clusterId := "A", distance := 3 / 5 }] := rfl
  have hcond : newClusterCond exArgsLink.simThreshold
      [{ clusterId := "A", distance := 2 / 5 }, { clusterId := "A", distance := 3 / 5 }] := by
    unfold newClusterCond bestCluster groupScores exArgsLink
    norm_num
  have hpart1 := assignToCluster_newCluster_crossLink_spec.1 exArgsLink exStoreA [1] _
    hhits hcond
  have hpart2 := assignToCluster_newCluster_crossLink_spec.2 exArgsLink exStoreA [1] _ "A"
    hhits hcond
    (by simp [exStoreA])
    (by intro i _ l hl; simp [exStoreA] at hl)
    (by simp [exArgsLink])
    (by simp [exArgsLink])
    (by simp [exArgsLink])
    ⟨{ clusterId := "A", distance := 2 / 5 }, by simp, rfl, by unfold exArgsLink; norm_num⟩
  exact ⟨hhits, hcond, hpart1, hpart2⟩

/- ===================== appendToMemory: dedup and counting lemmas ===================== -/

/-- Character data of a generated bullet line. -/
theorem data_bullet (f : String) : ("- " ++ f).data = '-' :: ' ' :: f.data := by
  rw [String.data_append]; rfl

/-- A generated bullet line passes the bullet test of extractAllFactLines. -/
theorem strStartsWith_bullet (f : String) : strStartsWith ("- " ++ f) "- " = true := by
  unfold strStartsWith; rw [data_bullet]; rfl

/-- A generated bullet line is never a section heading. -/
theorem strStartsWith_bullet_heading (f : String) :
    strStartsWith ("- " ++ f) "## " = false := by
  unfold strStartsWith; rw [data_bullet]; rfl

/-- Dropping the bullet marker recovers the fact text. -/
theorem strDrop_bullet (f : String) : strDrop ("- " ++ f) 2 = f := by
  unfold strDrop; rw [data_bullet]; rfl

/-- A generated bullet line is never the blank separator line. -/
theorem bullet_ne_blank (f : String) : ("- " ++ f) ≠ "" := by
  intro h
  have h2 : ('-' :: ' ' :: f.data : List Char) = [] := by
    rw [← data_bullet]
    exact congrArg String.data h
  exact List.noConfusion h2

/-- A generated bullet line is never the Other heading line. -/
theorem bullet_ne_other (f : String) : ("- " ++ f) ≠ "## Other" := by
  intro h
  have h2 : ('-' :: ' ' :: f.data : List Char) = "## Other".data := by
    rw [← data_bullet]
    exact congrArg String.data h
  simp at h2

/-- Counting a line in a splice: both sides of the cut contribute the
original count. -/
theorem count_splice (ls : List String) (pos : Nat) (new : List String) (x : String) :
    (spliceInsert ls pos new).count x = ls.count x + new.count x := by
  unfold spliceInsert
  rw [List.count_append, List.count_append]
  have h : (ls.take pos).count x + (ls.drop pos).count x = ls.count x := by
    rw [← List.count_append, List.take_append_drop]
  omega

/-- extractAllFactLines distributes over append. -/
theorem extract_append (l1 l2 : List String) :
    extractAllFactLines (l1 ++ l2) = extractAllFactLines l1 ++ extractAllFactLines l2 := by
  unfold extractAllFactLines
  rw [List.filter_append, List.map_append]

/-- Fact-line count of a splice. -/
theorem extract_splice (ls : List String) (pos : Nat) (new : List String) :
    (extractAllFactLines (spliceInsert ls pos new)).length
      = (extractAllFactLines ls).length + (extractAllFactLines new).length := by
  unfold spliceInsert
  rw [extract_append, extract_append, List.length_append, List.length_append]
  have h : (extractAllFactLines (ls.take pos)).length
      + (extractAllFactLines (ls.drop pos)).length = (extractAllFactLines ls).length := by
    rw [← List.length_append, ← extract_append, List.take_append_drop]
  omega

/-- extractAllFactLines on a cons of a bullet line. -/
theorem extract_cons_bullet (f : String) (rest : List String) :
    extractAllFactLines (("- " ++ f) :: rest) = strTrim f :: extractAllFactLines rest := by
  unfold extractAllFactLines
  simp [List.filter_cons, strStartsWith_bullet, strDrop_bullet]

/-- extractAllFactLines skips non-bullet lines. -/
theorem extract_cons_plain (l : String) (rest : List String)
    (h : strStartsWith l "- " = false) :
    extractAllFactLines (l :: rest) = extractAllFactLines rest := by
  unfold extractAllFactLines
  simp [List.filter_cons, h]

/-- Number of fact lines contributed by a generated bullet block. -/
theorem length_extract_bullets (fs : List String) :
    (extractAllFactLines (fs.map (fun f => "- " ++ f))).length = fs.length := by
  induction fs with
  | nil => rfl
  | cons f rest ih =>
    rw [List.map_cons, extract_cons_bullet, List.length_cons, ih, List.length_cons]

/-- Fact-line count of the section-splice fold of rebuildLines. -/
theorem extract_len_spliceFold (inss : List (Nat × List String)) :
    ∀ ls : List String,
      (extractAllFactLines (inss.foldl
          (fun ls ins => spliceInsert ls (ins.1 + 1) (ins.2.map (fun f => "- " ++ f)))
          ls)).length
        = (extractAllFactLines ls).length + (inss.map (fun p => p.2.length)).sum := by
  induction inss with
  | nil => intro ls; simp
  | cons ins rest ih =>
    intro ls
    rw [List.foldl_cons, ih, extract_splice, length_extract_bullets, List.map_cons,
      List.sum_cons]
    omega

/-- mergeSort keeps the sum of the bucket sizes. -/
theorem sum_mergeSort_snd (l : List (Nat × List String))
    (le : Nat × List String → Nat × List String → Bool) :
    ((l.mergeSort le).map (fun p => p.2.length)).sum
      = (l.map (fun p => p.2.length)).sum :=
  ((l.mergeSort_perm le).map _).sum_eq

/-- mergeSort of a single insert. -/
theorem mergeSort_singleton {α : Type} (a : α) (le : α → α → Bool) :
    [a].mergeSort le = [a] :=
  List.perm_singleton.mp (List.mergeSort_perm [a] le)

/-- The bucket-size sum the section-insert fold of rebuildLines accumulates:
the sizes of the buckets with a real section key. -/
theorem sum_snd_sectionFold (lines : List String) (sections : List MemSection) :
    ∀ (bs : List (Int × List String)) (acc : List (Nat × List String)),
      ((bs.foldl
          (fun acc p =>
            if p.1 < 0 then acc
            else acc ++ [(lastBulletIn lines (sections.getD p.1.toNat default).startLine
                (sections.getD p.1.toNat default).endLine, p.2)])
          acc).map (fun p => p.2.length)).sum
        = (acc.map (fun p => p.2.length)).sum
          + ((bs.filter (fun p => decide (0 ≤ p.1))).map (fun p => p.2.length)).sum := by
  intro bs
  induction bs with
  | nil => intro acc; simp
  | cons q rest ih =>
    intro acc
    rw [List.foldl_cons]
    by_cases h : q.1 < 0
    · have h2 : ¬ 0 ≤ q.1 := by omega
      rw [if_pos h, ih]
      simp [List.filter_cons, h2]
    · have h2 : 0 ≤ q.1 := by omega
      rw [if_neg h, ih]
      simp [List.filter_cons, h2]
      omega

/-- Bucket-size sums split along the sign of the key. -/
theorem sum_filter_sign (bs : List (Int × List String)) :
    ((bs.filter (fun p => decide (0 ≤ p.1))).map (fun p => p.2.length)).sum
      + ((bs.filter (fun p => decide (p.1 < 0))).map (fun p => p.2.length)).sum
      = (bs.map (fun p => p.2.length)).sum := by
  induction bs with
  | nil => rfl
  | cons q rest ih =>
    by_cases h : 0 ≤ q.1
    · have h2 : ¬ q.1 < 0 := by omega
      simp [List.filter_cons, h, h2]
      omega
    · have h2 : q.1 < 0 := by omega
      simp [List.filter_cons, h, h2]
      omega

/-- With distinct keys the catch-all entry found by find? is the only
negative-key bucket. -/
theorem filter_neg_eq_find : ∀ (bs : List (Int × List String)) (pr : Int × List String),
    bs.find? (fun p => decide (p.1 = -1)) = some pr →
    (∀ p ∈ bs, p.1 = -1 ∨ 0 ≤ p.1) →
    ((bs.map Prod.fst).Nodup) →
    bs.filter (fun p => decide (p.1 < 0)) = [pr] := by
  intro bs
  induction bs with
  | nil => intro pr hfind _ _; simp at hfind
  | cons q rest ih =>
    intro pr hfind hkeys hnodup
    rw [List.map_cons, List.nodup_cons] at hnodup
    by_cases h : q.1 = -1
    · rw [List.find?_cons_of_pos _ (by simpa using h)] at hfind
      cases hfind
      have htail : rest.filter (fun p => decide (p.1 < 0)) = [] := by
        rw [List.filter_eq_nil_iff]
        intro p hp
        rcases hkeys p (List.mem_cons_of_mem _ hp) with h1 | h1
        · have hmem : q.1 ∈ rest.map Prod.fst := by
            rw [h, ← h1]; exact List.mem_map_of_mem Prod.fst hp
          exact absurd hmem hnodup.1
        · simp only [decide_eq_true_eq]; omega
      simp [List.filter_cons, h, htail]
    · rw [List.find?_cons_of_neg _ (by simpa using h)] at hfind
      have hge : 0 ≤ q.1 := (hkeys q (List.mem_cons_self q rest)).resolve_left h
      have h2 : ¬ q.1 < 0 := by omega
      have htail := ih pr hfind (fun p hp => hkeys p (List.mem_cons_of_mem _ hp)) hnodup.2
      simp [List.filter_cons, h2, htail]

/-- Without a catch-all bucket every key is a section index. -/
theorem filter_pos_of_find_none (bs : List (Int × List String))
    (hfind : bs.find? (fun p => decide (p.1 = -1)) = none)
    (hkeys : ∀ p ∈ bs, p.1 = -1 ∨ 0 ≤ p.1) :
    bs.filter (fun p => decide (0 ≤ p.1)) = bs := by
  rw [List.filter_eq_self]
  intro p hp
  have h1 := List.find?_eq_none.mp hfind p hp
  rcases hkeys p hp with h2 | h2
  · exact absurd (by simpa using h2) h1
  · simpa using h2

/-- Fact-line count of rebuildLines: with well-formed buckets every bucketed
fact contributes exactly one new fact line. -/
theorem extract_len_rebuild (lines : List String) (sections : List MemSection)
    (buckets : List (Int × List String))
    (hkeys : ∀ p ∈ buckets, p.1 = -1 ∨ 0 ≤ p.1)
    (hnodup : (buckets.map Prod.fst).Nodup) :
    (extractAllFactLines (rebuildLines lines sections buckets)).length
      = (extractAllFactLines lines).length + (buckets.map (fun p => p.2.length)).sum := by
  have hsec := sum_snd_sectionFold lines sections buckets []
  rw [List.map_nil, List.sum_nil, Nat.zero_add] at hsec
  have hsign := sum_filter_sign buckets
  simp only [rebuildLines]
  split
  · next otherFacts heq =>
    obtain ⟨pr, hfind, hsnd⟩ := Option.map_eq_some'.mp heq
    have hneg := filter_neg_eq_find buckets pr hfind hkeys hnodup
    rw [hneg] at hsign
    simp only [List.map_cons, List.map_nil, List.sum_cons, List.sum_nil] at hsign
    split
    · next hEmpty =>
      have hOF : otherFacts = [] := by simpa using hEmpty
      rw [extract_len_spliceFold, sum_mergeSort_snd, hsec]
      have h0 : pr.2.length = 0 := by rw [hsnd, hOF]; rfl
      omega
    · split
      · rw [extract_splice, extract_len_spliceFold, sum_mergeSort_snd, hsec,
          length_extract_bullets]
        have hlen : otherFacts.length = pr.2.length := by rw [hsnd]
        omega
      · rw [extract_append, extract_append, List.length_append, List.length_append,
          extract_len_spliceFold, sum_mergeSort_snd, hsec, length_extract_bullets]
        have hmid : (extractAllFactLines ["", "## Other"]).length = 0 := rfl
        rw [hmid]
        have hlen : otherFacts.length = pr.2.length := by rw [hsnd]
        omega
  · next heq =>
    rw [extract_len_spliceFold, sum_mergeSort_snd, hsec]
    have hfind : buckets.find? (fun p => decide (p.1 = -1)) = none := by
      rcases h : buckets.find? (fun p => decide (p.1 = -1)) with _ | pr
      · exact h
      · rw [h] at heq; simp at heq
    rw [filter_pos_of_find_none buckets hfind hkeys]

/-- bucketsAdd preserves the bucket invariant when the new key is a section
index or the catch-all. -/
theorem bucketsAdd_inv (bs : List (Int × List String)) (k : Int) (f : String)
    (hinv : BucketInv bs) (hk : k = -1 ∨ 0 ≤ k) : BucketInv (bucketsAdd bs k f) := by
  obtain ⟨hkeys, hnodup⟩ := hinv
  unfold bucketsAdd BucketInv
  by_cases h : bs.any (fun p => decide (p.1 = k))
  · rw [if_pos h]
    constructor
    · intro p hp
      obtain ⟨q, hq, hqe⟩ := List.mem_map.mp hp
      have hfst : p.1 = q.1 := by
        rw [← hqe]; split <;> rfl
      rw [hfst]
      exact hkeys q hq
    · have hmk : (bs.map (fun p => if p.1 = k then (p.1, p.2 ++ [f]) else p)).map Prod.fst
          = bs.map Prod.fst := by
        rw [List.map_map]
        refine List.map_congr_left ?_
        intro q _
        show (if q.1 = k then (q.1, q.2 ++ [f]) else q).1 = q.1
        split <;> rfl
      rw [hmk]
      exact hnodup
  · rw [if_neg h]
    constructor
    · intro p hp
      rcases List.mem_append.mp hp with h1 | h1
      · exact hkeys p h1
      · rw [List.mem_singleton.mp h1]
        exact hk
    · rw [List.map_append]
      refine List.Nodup.append hnodup (by simp) ?_
      intro x hx hx2
      simp only [List.map_cons, List.map_nil, List.mem_singleton] at hx2
      subst hx2
      apply h
      rw [List.any_eq_true]
      obtain ⟨q, hq, hqe⟩ := List.mem_map.mp hx
      exact ⟨q, hq, by simp [hqe]⟩

/-- The per-fact loop of appendToMemory preserves the bucket invariant. -/
theorem appendLoop_inv (E : String → Option Emb) (sim : Emb → Emb → ℚ)
    (sectionEmbs : List (Option Emb)) (facts : List String) :
    ∀ st : AppendLoopState, BucketInv st.buckets →
      BucketInv ((facts.foldl (appendLoopStep E sim sectionEmbs) st).buckets) := by
  induction facts with
  | nil => intro st h; exact h
  | cons fa rest ih =>
    intro st h
    rw [List.foldl_cons]
    refine ih _ ?_
    simp only [appendLoopStep]
    split
    · exact h
    · split
      · split
        · exact h
        · refine bucketsAdd_inv _ _ _ h ?_
          split
          · next hc => exact Or.inr hc.1
          · exact Or.inl rfl
      · exact bucketsAdd_inv _ _ _ h (Or.inl rfl)

/-- rebuildLines on a lone catch-all bucket, when no Other section exists:
append the separator, the Other heading and the bullet line. -/
theorem rebuild_other_fresh (lines : List String) (sections : List MemSection)
    (f : String) (h : lines.any (fun l => strStartsWith l "## Other") = false) :
    rebuildLines lines sections [(-1, [f])]
      = lines ++ ["", "## Other", "- " ++ f] := by
  simp [rebuildLines, List.mergeSort_nil, h]

/-- rebuildLines on a lone single-fact bucket adds exactly one copy of the
bullet line. -/
theorem rebuild_single_count (lines : List String) (sections : List MemSection)
    (k : Int) (f : String) (hk : k = -1 ∨ 0 ≤ k) :
    (rebuildLines lines sections [(k, [f])]).count ("- " ++ f)
      = lines.count ("- " ++ f) + 1 := by
  rcases hk with hk | hk
  · subst hk
    by_cases h : lines.any (fun l => strStartsWith l "## Other")
    · have hres : rebuildLines lines sections [(-1, [f])]
          = spliceInsert lines
              (otherInsertPos lines
                ((lines.findIdx? (fun l => strStartsWith l "## Other")).getD 0) + 1)
              ["- " ++ f] := by
        simp [rebuildLines, List.mergeSort_nil, h]
      rw [hres, count_splice]
      simp
    · have hres := rebuild_other_fresh lines sections f (by simpa using h)
      rw [hres, List.count_append]
      have h1 : List.count ("- " ++ f) ["", "## Other", "- " ++ f] = 1 := by
        simp [List.count_cons, Ne.symm (bullet_ne_blank f), Ne.symm (bullet_ne_other f)]
      rw [h1]
  · have h1 : ¬ k < 0 := by omega
    have h2 : ¬ k = -1 := by omega
    have hres : rebuildLines lines sections [(k, [f])]
        = spliceInsert lines
            (lastBulletIn lines (sections.getD k.toNat default).startLine
              (sections.getD k.toNat default).endLine + 1) ["- " ++ f] := by
      simp [rebuildLines, h1, h2, mergeSort_singleton]
    rw [hres, count_splice]
    simp

/-- parseSectionsAux step on a heading line. -/
theorem parseAux_step_heading (total i : Nat) (l0 : String) (rest : List String)
    (cur? : Option MemSection) (h0 : strStartsWith l0 "## " = true) :
    parseSectionsAux total i (l0 :: rest) cur?
      = (match cur? with
          | some cur => [{ cur with endLine := i - 1 }]
          | none => [])
        ++ parseSectionsAux total (i + 1) rest
            (some { heading := strTrim (strDrop l0 3), startLine := i, endLine := 0,
                    factLines := [] }) := by
  simp [parseSectionsAux, h0]

/-- parseSectionsAux step on a bullet line inside a section. -/
theorem parseAux_step_bullet (total i : Nat) (l0 : String) (rest : List String)
    (cur : MemSection) (h0 : strStartsWith l0 "## " = false)
    (hb : strStartsWith l0 "- " = true) :
    parseSectionsAux total i (l0 :: rest) (some cur)
      = parseSectionsAux total (i + 1) rest
          (some { cur with factLines := cur.factLines ++ [strTrim (strDrop l0 2)] }) := by
  simp [parseSectionsAux, h0, hb]

/-- parseSectionsAux step on a plain line inside a section. -/
theorem parseAux_step_plain (total i : Nat) (l0 : String) (rest : List String)
    (cur : MemSection) (h0 : strStartsWith l0 "## " = false)
    (hb : strStartsWith l0 "- " = false) :
    parseSectionsAux total i (l0 :: rest) (some cur)
      = parseSectionsAux total (i + 1) rest (some cur) := by
  simp [parseSectionsAux, h0, hb]

/-- parseSectionsAux step on a line before the first section. -/
theorem parseAux_step_none (total i : Nat) (l0 : String) (rest : List String)
    (h0 : strStartsWith l0 "## " = false) :
    parseSectionsAux total i (l0 :: rest) none
      = parseSectionsAux total (i + 1) rest none := by
  simp [parseSectionsAux, h0]

/-- Appending a fresh Other section with one bullet to any line list yields a
parse with an Other section containing the trimmed fact. -/
theorem parse_suffix_other (f : String) : ∀ (pre : List String) (i : Nat)
    (cur? : Option MemSection) (total : Nat),
    ∃ s ∈ parseSectionsAux total i (pre ++ ["", "## Other", "- " ++ f]) cur?,
      s.heading = "Other" ∧ strTrim f ∈ s.factLines := by
  intro pre
  induction pre with
  | nil =>
    intro i cur? total
    have e1 : strStartsWith "" "## " = false := rfl
    have e2 : strStartsWith "" "- " = false := rfl
    have e3 : strStartsWith "## Other" "## " = true := rfl
    have e4 : strStartsWith ("- " ++ f) "## " = false := strStartsWith_bullet_heading f
    have e5 : strStartsWith ("- " ++ f) "- " = true := strStartsWith_bullet f
    have e6 : strTrim (strDrop "## Other" 3) = "Other" := rfl
    rw [List.nil_append]
    cases cur? with
    | none =>
      rw [parseAux_step_none total i "" _ e1,
        parseAux_step_heading total (i + 1) "## Other" _ none e3,
        parseAux_step_bullet total (i + 2) ("- " ++ f) _ _ e4 e5]
      refine ⟨{ heading := "Other", startLine := i + 1, endLine := total - 1,
                factLines := [strTrim f] }, ?_, rfl, by simp⟩
      refine List.mem_append_right _ ?_
      simp [parseSectionsAux, strDrop_bullet, e6]
    | some cur =>
      rw [parseAux_step_plain total i "" _ cur e1 e2,
        parseAux_step_heading total (i + 1) "## Other" _ (some cur) e3,
        parseAux_step_bullet total (i + 2) ("- " ++ f) _ _ e4 e5]
      refine ⟨{ heading := "Other", startLine := i + 1, endLine := total - 1,
                factLines := [strTrim f] }, ?_, rfl, by simp⟩
      refine List.mem_append_right _ ?_
      simp [parseSectionsAux, strDrop_bullet, e6]
  | cons l0 rest ih =>
    intro i cur? total
    rw [List.cons_append]
    by_cases h0 : strStartsWith l0 "## " = true
    · rw [parseAux_step_heading total i l0 _ cur? h0]
      obtain ⟨s, hs, hP⟩ := ih (i + 1)
        (some { heading := strTrim (strDrop l0 3), startLine := i, endLine := 0,
                factLines := [] }) total
      exact ⟨s, List.mem_append_right _ hs, hP⟩
    · have h0f : strStartsWith l0 "## " = false := by simpa using h0
      cases cur? with
      | none =>
        rw [parseAux_step_none total i l0 _ h0f]
        exact ih (i + 1) none total
      | some cur =>
        by_cases hb : strStartsWith l0 "- " = true
        · rw [parseAux_step_bullet total i l0 _ cur h0f hb]
          exact ih (i + 1) _ total
        · have hbf : strStartsWith l0 "- " = false := by simpa using hb
          rw [parseAux_step_plain total i l0 _ cur h0f hbf]
          exact ih (i + 1) _ total

/-- appendToMemory skips a case-insensitive exact duplicate untouched. -/
theorem appendToMemory_exactDup (E : String → Option Emb) (sim : Emb → Emb → ℚ)
    (f : String) (lines : List String) (h : exactDupB lines f = true) :
    appendToMemory E sim [f] lines
      = { lines := lines, totalAdded := 0, retVal := none } := by
  unfold exactDupB at h
  simp [appendToMemory, appendLoopStep, h, List.foldl_cons, List.foldl_nil]

/-- appendToMemory skips a semantic duplicate (similarity above 0.85)
untouched. -/
theorem appendToMemory_semDup (E : String → Option Emb) (sim : Emb → Emb → ℚ)
    (f : String) (lines : List String)
    (hno : exactDupB lines f = false) (hdup : semDupB E sim lines f = true) :
    appendToMemory E sim [f] lines
      = { lines := lines, totalAdded := 0, retVal := none } := by
  unfold exactDupB at hno
  rcases hEf : E f with _ | e
  · unfold semDupB at hdup
    rw [hEf] at hdup
    exact absurd hdup (by simp)
  · have hdup2 : ((extractAllFactLines lines).map E).any (fun e? =>
        match e? with
        | some e2 => decide (sim e e2 > 17 / 20)
        | none => false) = true := by
      unfold semDupB at hdup
      rw [hEf] at hdup
      exact hdup
    simp [appendToMemory, appendLoopStep, hno, hEf, hdup2, List.foldl_cons, List.foldl_nil]

/-- A fresh fact always lands in exactly one bucket holding just it. -/
theorem appendToMemory_single_shape (E : String → Option Emb) (sim : Emb → Emb → ℚ)
    (f : String) (lines : List String)
    (hno : exactDupB lines f = false) (hsem : semDupB E sim lines f = false) :
    ∃ k : Int, (k = -1 ∨ 0 ≤ k) ∧
      appendToMemory E sim [f] lines
        = { lines := rebuildLines lines (parseMemorySections lines) [(k, [f])],
            totalAdded := 1, retVal := none } := by
  unfold exactDupB at hno
  rcases hEf : E f with _ | e
  · refine ⟨-1, Or.inl rfl, ?_⟩
    simp [appendToMemory, appendLoopStep, hno, hEf, bucketsAdd, List.foldl_cons,
      List.foldl_nil]
  · have hsem2 : ((extractAllFactLines lines).map E).any (fun e? =>
        match e? with
        | some e2 => decide (sim e e2 > 17 / 20)
        | none => false) = false := by
      unfold semDupB at hsem
      rw [hEf] at hsem
      exact hsem
    refine ⟨if (bestSectionOf sim e ((parseMemorySections lines).map (fun s =>
        E (s.heading ++ ": " ++ String.intercalate ". " s.factLines)))).1 ≥ 0 ∧
          (bestSectionOf sim e ((parseMemorySections lines).map (fun s =>
        E (s.heading ++ ": " ++ String.intercalate ". " s.factLines)))).2 > 3 / 10 then
          (bestSectionOf sim e ((parseMemorySections lines).map (fun s =>
        E (s.heading ++ ": " ++ String.intercalate ". " s.factLines)))).1
        else -1, ?_, ?_⟩
    · split
      · next hc => exact Or.inr hc.1
      · exact Or.inl rfl
    · simp [appendToMemory, appendLoopStep, hno, hEf, hsem2, bucketsAdd,
        List.foldl_cons, List.foldl_nil]

/-- A fresh fact (no exact or semantic duplicate) adds exactly one bullet
line carrying it and is counted once. -/
theorem appendToMemory_fresh_count (E : String → Option Emb) (sim : Emb → Emb → ℚ)
    (f : String) (lines : List String)
    (hno : exactDupB lines f = false) (hsem : semDupB E sim lines f = false) :
    (appendToMemory E sim [f] lines).lines.count ("- " ++ f)
        = lines.count ("- " ++ f) + 1 ∧
    (appendToMemory E sim [f] lines).totalAdded = 1 := by
  obtain ⟨k, hk, hres⟩ := appendToMemory_single_shape E sim f lines hno hsem
  rw [hres]
  exact ⟨rebuild_single_count lines (parseMemorySections lines) k f hk, rfl⟩

/-- C4: deduplication of appendToMemory: a case-insensitively equal existing
fact suppresses the candidate (so ingesting the same trimmed fact twice
appends it exactly once); a candidate whose embedding similarity to some
existing fact exceeds 0.85 is suppressed too; and when embedding generation
fails only the semantic dedup and section placement are skipped: the fact is
still appended and counted, routed to the catch-all Other section (created
fresh when absent). -/
theorem appendToMemory_dedup_spec (E : String → Option Emb) (sim : Emb → Emb → ℚ)
    (f : String) (lines : List String) :
    (exactDupB lines f = true →
      appendToMemory E sim [f] lines
        = { lines := lines, totalAdded := 0, retVal := none }) ∧
    (exactDupB lines f = false → semDupB E sim lines f = true →
      appendToMemory E sim [f] lines
        = { lines := lines, totalAdded := 0, retVal := none }) ∧
    (exactDupB lines f = false → E f = none →
      ((appendToMemory E sim [f] lines).lines.count ("- " ++ f)
          = lines.count ("- " ++ f) + 1 ∧
        (appendToMemory E sim [f] lines).totalAdded = 1) ∧
      (lines.any (fun l => strStartsWith l "## Other") = false →
        (appendToMemory E sim [f] lines).lines = lines ++ ["", "## Other", "- " ++ f] ∧
        ∃ s ∈ parseMemorySections (appendToMemory E sim [f] lines).lines,
          s.heading = "Other" ∧ strTrim f ∈ s.factLines)) ∧
    (exactDupB lines f = false → semDupB E sim lines f = false → strTrim f = f →
      (appendToMemory E sim [f] lines).lines.count ("- " ++ f)
          = lines.count ("- " ++ f) + 1 ∧
      appendToMemory E sim [f] ((appendToMemory E sim [f] lines).lines)
          = { lines := (appendToMemory E sim [f] lines).lines, totalAdded := 0,
              retVal := none }) := by
  refine ⟨fun h => appendToMemory_exactDup E sim f lines h,
    fun hno hdup => appendToMemory_semDup E sim f lines hno hdup, ?_, ?_⟩
  · intro hno hEf
    have hsem : semDupB E sim lines f = false := by
      unfold semDupB
      rw [hEf]
    refine ⟨appendToMemory_fresh_count E sim f lines hno hsem, ?_⟩
    intro hOther
    have hres : appendToMemory E sim [f] lines
        = { lines := rebuildLines lines (parseMemorySections lines) [((-1 : Int), [f])],
            totalAdded := 1, retVal := none } := by
      unfold exactDupB at hno
      simp [appendToMemory, appendLoopStep, hno, hEf, bucketsAdd, List.foldl_cons,
        List.foldl_nil]
    have hlinesEq : (appendToMemory E sim [f] lines).lines
        = lines ++ ["", "## Other", "- " ++ f] := by
      rw [hres]
      exact rebuild_other_fresh lines (parseMemorySections lines) f hOther
    refine ⟨hlinesEq, ?_⟩
    rw [hlinesEq]
    unfold parseMemorySections
    exact parse_suffix_other f lines 0 none (lines ++ ["", "## Other", "- " ++ f]).length
  · intro hno hsem htrim
    have hfresh := appendToMemory_fresh_count E sim f lines hno hsem
    refine ⟨hfresh.1, ?_⟩
    have hmem : ("- " ++ f) ∈ (appendToMemory E sim [f] lines).lines := by
      have hc := hfresh.1
      exact List.count_pos_iff.mp (by omega)
    have hdup2 : exactDupB (appendToMemory E sim [f] lines).lines f = true := by
      unfold exactDupB
      rw [List.any_eq_true]
      refine ⟨f, ?_, by simp⟩
      unfold extractAllFactLines
      refine List.mem_map.mpr ⟨"- " ++ f,
        List.mem_filter.mpr ⟨hmem, strStartsWith_bullet f⟩, ?_⟩
      rw [strDrop_bullet]
      exact htrim
    exact appendToMemory_exactDup E sim f _ hdup2

/-- C4 witness: concrete memories exercising the four dedup behaviours: an
exact duplicate and a 0.9-similar paraphrase are skipped, an embedding
failure still appends the fact under a freshly created Other section, and
re-ingesting the appended fact is a no-op. -/
theorem appendToMemory_dedup_spec_witness :
    appendToMemory embFail simZero ["User likes tea"] ["# M", "- User likes tea"]
        = { lines := ["# M", "- User likes tea"], totalAdded := 0, retVal := none } ∧
    appendToMemory embOne simHigh ["User enjoys tea"] ["# M", "- User likes tea"]
        = { lines := ["# M", "- User likes tea"], totalAdded := 0, retVal := none } ∧
    (appendToMemory embFail simZero ["User likes tea"] ["# M"]).lines
        = ["# M"] ++ ["", "## Other", "- " ++ "User likes tea"] ∧
    (∃ s ∈ parseMemorySections
        (appendToMemory embFail simZero ["User likes tea"] ["# M"]).lines,
      s.heading = "Other" ∧ strTrim "User likes tea" ∈ s.factLines) ∧
    appendToMemory embFail simZero ["User likes tea"]
        ((appendToMemory embFail simZero ["User likes tea"] ["# M"]).lines)
        = { lines := (appendToMemory embFail simZero ["User likes tea"] ["# M"]).lines,
            totalAdded := 0, retVal := none } := by
  have h1 := (appendToMemory_dedup_spec embFail simZero "User likes tea"
    ["# M", "- User likes tea"]).1 rfl
  have hsem : semDupB embOne simHigh ["# M", "- User likes tea"] "User enjoys tea"
      = true := by
    show (decide ((9 : ℚ) / 10 > 17 / 20) || false) = true
    norm_num
  have h2 := (appendToMemory_dedup_spec embOne simHigh "User enjoys tea"
    ["# M", "- User likes tea"]).2.1 rfl hsem
  have h3 := ((appendToMemory_dedup_spec embFail simZero "User likes tea" ["# M"]).2.2.1
    rfl rfl).2 rfl
  have h4 := (appendToMemory_dedup_spec embFail simZero "User likes tea" ["# M"]).2.2.2
    rfl rfl rfl
  exact ⟨h1, h2, h3.1, h3.2, h4.2⟩

/-- C8 counterexample: on a batch with one fresh fact the document gains the
fact line and the computed count is 1, yet appendToMemory returns no value:
there is no returned count. -/
theorem appendToMemory_returns_no_count :
    (appendToMemory embFail simZero ["User name is Sam"] ["# Memory"]).totalAdded = 1 ∧
    (appendToMemory embFail simZero ["User name is Sam"] ["# Memory"]).lines
        = ["# Memory", "", "## Other", "- User name is Sam"] ∧
    (appendToMemory embFail simZero ["User name is Sam"] ["# Memory"]).retVal = none := by
  have hres : appendToMemory embFail simZero ["User name is Sam"] ["# Memory"]
      = { lines := rebuildLines ["# Memory"] (parseMemorySections ["# Memory"])
            [((-1 : Int), ["User name is Sam"])], totalAdded := 1, retVal := none } := by
    have hno : (extractAllFactLines ["# Memory"]).any
        (fun ef => decide (strLower ef = strLower "User name is Sam")) = false := rfl
    simp [appendToMemory, appendLoopStep, hno, bucketsAdd, List.foldl_cons,
      List.foldl_nil, embFail]
  refine ⟨rfl, ?_, rfl⟩
  rw [hres]
  exact (rebuild_other_fresh ["# Memory"] (parseMemorySections ["# Memory"])
    "User name is Sam" rfl).trans rfl

/-- C8 (amended): appendToMemory computes and logs in totalAdded exactly the
number of fact lines actually appended to the document, duplicates excluded,
but returns no value: its JS return value is undefined, so no count reaches
the caller. -/
theorem appendToMemory_totalAdded_spec (E : String → Option Emb) (sim : Emb → Emb → ℚ)
    (facts lines : List String) :
    (appendToMemory E sim facts lines).retVal = none ∧
    (extractAllFactLines (appendToMemory E sim facts lines).lines).length
        = (extractAllFactLines lines).length
          + (appendToMemory E sim facts lines).totalAdded := by
  constructor
  · simp only [appendToMemory]
    split
    · rfl
    · split
      · rfl
      · rfl
  · simp only [appendToMemory]
    split
    · simp
    · split
      · simp
      · have hinv := appendLoop_inv E sim
          ((parseMemorySections lines).map (fun s =>
            E (s.heading ++ ": " ++ String.intercalate ". " s.factLines))) facts
          { existingFacts := extractAllFactLines lines,
            existingEmbs := (extractAllFactLines lines).map E, buckets := [] }
          ⟨by simp, by simp⟩
        exact extract_len_rebuild lines (parseMemorySections lines) _ hinv.1 hinv.2
